import Mathlib

/-!
# Automerge sync experiments

A shallow embedding of the programs of the repository:

* `cmd/three/server`: the resumable request/response sync handler, which keeps
  snapshots of one replica in two SQL tables (`stores`, `snapshots`), and the
  cookie it exchanges with `cmd/three/client`;
* `cmd/four/pkg`: the streaming sync session over a websocket;
* `cmd/four/server`: the store cache, its initialization, the periodic backup
  sweep and the shutdown.

The CRDT engine (automerge-go), the base64 codec, the SQL engine, the clock and
the HTTP transport are external to the repository.  The engine and the codec
are a parameter (`Lib`); the SQL statements the handlers issue are given their
relational meaning on lists of rows; the clock reading and the failures the
outside world can inject in one request are a parameter (`Env`).
-/

namespace Automerge

/-! ## External libraries -/

/-- A Go byte slice. -/
abbrev Bytes := List (Fin 256)

/-- Outcome of `SyncState.ReceiveMessage`: the replica and the sync state as the
call leaves them, and whether it returned an error. -/
structure Received (Doc SS : Type) where
  doc : Doc
  ss : SS
  err : Bool

/-- The library calls the programs make.  `Doc` is `*automerge.Doc`, `SS` is
`*automerge.SyncState` (whose document is passed alongside).

`generateMessage` stands for `ss.GenerateMessage()`, which returns
`(msg, valid)` with `msg` non-nil exactly when `valid` holds: `some b` is a
valid message whose `Bytes()` is `b`, `none` is `(nil, false)`. -/
structure Lib (Doc SS : Type) where
  /-- The call `automerge.Load(bytes)`; `none` when it returns an error. -/
  load : Bytes → Option Doc
  /-- The call `doc.Save()`. -/
  save : Doc → Bytes
  /-- The call `automerge.NewSyncState(doc)`. -/
  newSyncState : Doc → SS
  /-- The call `automerge.LoadSyncState(doc, cookie)`; `none` on error. -/
  loadSyncState : Doc → Bytes → Option SS
  /-- The call `ss.GenerateMessage()`: the message, if valid, and the sync state after. -/
  generateMessage : Doc → SS → Option Bytes × SS
  /-- The call `ss.ReceiveMessage(msg)`. -/
  receiveMessage : Doc → SS → Bytes → Received Doc SS
  /-- The call `ss.Save()`. -/
  saveSyncState : SS → Bytes
  /-- The call `base64.StdEncoding.EncodeToString`. -/
  encodeToString : Bytes → String
  /-- The call `base64.StdEncoding.DecodeString`; `none` on error. -/
  decodeString : String → Option Bytes

/-! ## Durable state of `cmd/three/server` -/

/-- A row of `stores (id text not null primary key, snapshot_id text)`. -/
structure StoreRow where
  id : String
  snapshot_id : Option String
deriving DecidableEq, Repr

/-- A row of `snapshots (id text not null primary key, store_id text not null,
content text not null)`. -/
structure SnapshotRow where
  id : String
  store_id : String
  content : String
deriving DecidableEq, Repr

/-- The two tables. -/
structure DB where
  stores : List StoreRow
  snapshots : List SnapshotRow
deriving DecidableEq, Repr

/-- The database file as `sql.Open` finds it: a table may not exist yet. -/
structure DBFile where
  stores : Option (List StoreRow)
  snapshots : Option (List SnapshotRow)
deriving DecidableEq, Repr

/-- A database file with no tables. -/
def freshFile : DBFile := ⟨none, none⟩

/-- What the outside world contributes to one request: the clock reading and,
for every call that can fail for reasons outside the program, whether it does. -/
structure Env where
  /-- The value of `time.Now().UnixNano()`. -/
  now : Int
  /-- Whether `BeginTx` returns an error. -/
  beginTxErr : Bool := false
  /-- Whether the `SELECT` fails with an error other than `sql.ErrNoRows`. -/
  queryErr : Bool := false
  /-- Whether `INSERT INTO snapshots` fails for a reason other than its key. -/
  insertErr : Bool := false
  /-- Whether `RowsAffected` of the snapshot insert returns an error. -/
  insertRowsErr : Bool := false
  /-- Whether `INSERT INTO stores` fails for a reason other than its key. -/
  insertStoreErr : Bool := false
  /-- Whether `UPDATE stores` returns an error. -/
  updateErr : Bool := false
  /-- Whether `RowsAffected` of the update returns an error. -/
  updateRowsErr : Bool := false
  /-- Whether `tx.Commit` returns an error (the transaction is then rolled back). -/
  commitErr : Bool := false
  /-- Whether writing the JSON response body fails. -/
  encodeErr : Bool := false
deriving DecidableEq, Repr

/-- The rendering `fmt.Sprintf("%d", n)`. -/
def sprintfD (n : Int) : String := toString n

/-- `CREATE TABLE IF NOT EXISTS`: an existing table is kept, a missing one is
created empty. -/
def createTableIfNotExists {α : Type} (t : Option (List α)) : List α :=
  t.getD []

/-- The statement `INSERT INTO snapshots(id, store_id, content) VALUES (?, ?, ?)`:
refused when the primary key is taken, else the row is added; returns the
table state and the number of rows affected. -/
def insertSnapshot (db : DB) (row : SnapshotRow) : Option (DB × Nat) :=
  if db.snapshots.any (fun r => r.id == row.id) then none
  else some ({ db with snapshots := db.snapshots ++ [row] }, 1)

/-- The statement `INSERT INTO stores(id, snapshot_id) VALUES (?, ?)`. -/
def insertStore (db : DB) (row : StoreRow) : Option (DB × Nat) :=
  if db.stores.any (fun r => r.id == row.id) then none
  else some ({ db with stores := db.stores ++ [row] }, 1)

/-- The statement `UPDATE stores SET snapshot_id = ? WHERE id = ?`: returns the
table state and the number of rows affected. -/
def updateStore (db : DB) (snapshotId storeId : String) : DB × Nat :=
  ({ db with stores := db.stores.map fun r =>
      if r.id = storeId then { r with snapshot_id := some snapshotId } else r },
   db.stores.countP fun r => r.id == storeId)

/-- The rows of `SELECT content FROM snapshots sn INNER JOIN stores st
ON sn.id = st.snapshot_id WHERE st.id = ?`. -/
def selectContent (db : DB) (storeId : String) : List String :=
  db.snapshots.flatMap fun sn =>
    (db.stores.filter fun st => st.id == storeId && st.snapshot_id == some sn.id).map
      fun _ => sn.content

/-- The row `QueryRowContext(...).Scan(&rawContent)` reads: the first one, or
`none` for `sql.ErrNoRows`. -/
def queryRow (db : DB) (storeId : String) : Option String :=
  (selectContent db storeId).head?

/-! ## HTTP surface of `cmd/three/server` -/

/-- A request as a handler sees it: the method, and the JSON body decoded into
the handler's `inputs` struct (`none` when decoding fails). -/
structure Request (α : Type) where
  method : String
  body : Option α

/-- The `inputs` struct of `server.sync`: a nil cookie is `none`. -/
structure SyncInputs where
  cookie : Option Bytes
  messages : List Bytes
deriving DecidableEq, Repr

/-- The `inputs` struct of `server.createNew`. -/
structure NewInputs where
  content : Bytes
deriving DecidableEq, Repr

/-- What a handler writes: a bare status (`WriteHeader`), or the JSON body
`{"cookie": ..., "messages": ...}` with the implicit status 200. -/
inductive Response where
  | status (code : Nat)
  | json (cookie : Bytes) (messages : List Bytes)
deriving DecidableEq, Repr

/-- The constant `http.StatusNoContent`. -/
def StatusNoContent : Nat := 204

/-- The constant `http.StatusBadRequest`. -/
def StatusBadRequest : Nat := 400

/-- The constant `http.StatusNotFound`. -/
def StatusNotFound : Nat := 404

/-- The constant `http.StatusMethodNotAllowed`. -/
def StatusMethodNotAllowed : Nat := 405

/-- The constant `http.StatusInternalServerError`. -/
def StatusInternalServerError : Nat := 500

/-- The store every handler of `cmd/three/server` works on. -/
def defaultStore : String := "default"

section Handlers

variable {Doc SS : Type}

/-- `server.init`: creates the two tables when missing; `none` when a
statement fails. -/
def server.init (createStoresErr createSnapshotsErr : Bool) (f : DBFile) : Option DB :=
  if createStoresErr then none
  else
    let stores := createTableIfNotExists f.stores
    if createSnapshotsErr then none
    else some ⟨stores, createTableIfNotExists f.snapshots⟩

/-- `server.createNew`: stores a first snapshot and the pointer to it. -/
def server.createNew (L : Lib Doc SS) (env : Env) (req : Request NewInputs) (db : DB) :
    Response × DB :=
  if req.method ≠ "POST" then (.status StatusMethodNotAllowed, db)
  else
    match req.body with
    | none => (.status StatusBadRequest, db)
    | some inputs =>
      match L.load inputs.content with
      | none => (.status StatusBadRequest, db)
      | some _ =>
        if env.beginTxErr then (.status StatusInternalServerError, db)
        else
          let snapShotId := sprintfD env.now
          if env.insertErr then (.status StatusInternalServerError, db)
          else
            match insertSnapshot db ⟨snapShotId, defaultStore, L.encodeToString inputs.content⟩ with
            | none => (.status StatusInternalServerError, db)
            | some (tx1, _) =>
              if env.insertStoreErr then (.status StatusInternalServerError, db)
              else
                match insertStore tx1 ⟨defaultStore, some snapShotId⟩ with
                | none => (.status StatusInternalServerError, db)
                | some (tx2, _) =>
                  if env.commitErr then (.status StatusInternalServerError, db)
                  else (.status StatusNoContent, tx2)

/-- One outbound batch of `server.sync`: up to `n` calls of `GenerateMessage`,
stopping at the first that is not valid; the messages are appended to `out`. -/
def generateBatch (L : Lib Doc SS) (doc : Doc) : Nat → SS → List Bytes → List Bytes × SS
  | 0, ss, out => (out, ss)
  | n + 1, ss, out =>
    match L.generateMessage doc ss with
    | (none, ss') => (out, ss')
    | (some msg, ss') => generateBatch L doc n ss' (out ++ [msg])

/-- The receive loop of `server.sync`: applies the messages in order; `none`
as soon as one application returns an error. -/
def receiveAll (L : Lib Doc SS) : Doc → SS → List Bytes → Option (Doc × SS)
  | doc, ss, [] => some (doc, ss)
  | doc, ss, message :: rest =>
    let r := L.receiveMessage doc ss message
    if r.err then none else receiveAll L r.doc r.ss rest

/-- Lines 327-365 of `server.sync`: insert the snapshot, repoint the store,
commit.  `none` is any of the failure branches (status 500, and the deferred
rollback discards the transaction); `some` is the committed state. -/
def persist (env : Env) (db : DB) (finalState : String) : Option DB :=
  let snapShotId := sprintfD env.now
  if env.insertErr then none
  else
    match insertSnapshot db ⟨snapShotId, defaultStore, finalState⟩ with
    | none => none
    | some (tx1, r1) =>
      if env.insertRowsErr then none
      else if r1 = 0 then none
      else if env.updateErr then none
      else
        let u := updateStore tx1 snapShotId defaultStore
        if env.updateRowsErr then none
        else if u.2 = 0 then none
        else if env.commitErr then none
        else some u.1

/-- Lines 369-377 of `server.sync`: save the sync state and write the body. -/
def respond (L : Lib Doc SS) (env : Env) (ss : SS) (outputMessages : List Bytes) : Response :=
  let finalCookie := L.saveSyncState ss
  if env.encodeErr then .status StatusInternalServerError
  else .json finalCookie outputMessages

/-- The branch `inputs.Cookie == nil` of `server.sync` (lines 228-262). -/
def syncNoCookie (L : Lib Doc SS) (env : Env) (inputs : SyncInputs) (db : DB) : Response × DB :=
  if inputs.messages.length > 0 then (.status StatusBadRequest, db)
  else if env.queryErr then (.status StatusInternalServerError, db)
  else
    match queryRow db defaultStore with
    | none => (.status StatusNotFound, db)
    | some rawContent =>
      match L.decodeString rawContent with
      | none => (.status StatusInternalServerError, db)
      | some decodedContent =>
        match L.load decodedContent with
        | none => (.status StatusInternalServerError, db)
        | some doc => (respond L env (L.newSyncState doc) [], db)

/-- Lines 265-296 of `server.sync`: read the current snapshot, decode it, load
the replica and load the sync state from the cookie.  `none` is any of the
failure branches, each of which answers status 500. -/
def openRound (L : Lib Doc SS) (env : Env) (db : DB) (cookie : Bytes) : Option (Doc × SS) :=
  if env.queryErr then none
  else
    match queryRow db defaultStore with
    | none => none
    | some rawContent =>
      match L.decodeString rawContent with
      | none => none
      | some decodedContent =>
        match L.load decodedContent with
        | none => none
        | some doc =>
          match L.loadSyncState doc cookie with
          | none => none
          | some ss => some (doc, ss)

/-- The branch with a cookie of `server.sync` (lines 263-367). -/
def syncWithCookie (L : Lib Doc SS) (env : Env) (cookie : Bytes) (inputs : SyncInputs)
    (db : DB) : Response × DB :=
  match openRound L env db cookie with
  | none => (.status StatusInternalServerError, db)
  | some (doc, ss) =>
    let b1 := generateBatch L doc 100 ss []
    match receiveAll L doc b1.2 inputs.messages with
    | none => (.status StatusInternalServerError, db)
    | some (doc2, ss2) =>
      let b2 := generateBatch L doc2 100 ss2 b1.1
      let finalState := L.encodeToString (L.save doc2)
      match persist env db finalState with
      | none => (.status StatusInternalServerError, db)
      | some db' => (respond L env b2.2 b2.1, db')

/-- `server.sync`: the resumable sync handler. -/
def server.sync (L : Lib Doc SS) (env : Env) (req : Request SyncInputs) (db : DB) :
    Response × DB :=
  if req.method ≠ "POST" then (.status StatusMethodNotAllowed, db)
  else
    match req.body with
    | none => (.status StatusBadRequest, db)
    | some inputs =>
      if env.beginTxErr then (.status StatusInternalServerError, db)
      else
        match inputs.cookie with
        | none => syncNoCookie L env inputs db
        | some cookie => syncWithCookie L env cookie inputs db

end Handlers

/-! ## Streaming session of `cmd/four/pkg` -/

/-- The constant `websocket.TextMessage`. -/
def TextMessage : Int := 1

/-- The constant `websocket.BinaryMessage`. -/
def BinaryMessage : Int := 2

/-- What a successful `conn.ReadMessage()` returns. -/
structure Frame where
  messageType : Int
  payload : Bytes
deriving DecidableEq, Repr

/-- `readAndReceiveMessage`, given what `conn.ReadMessage()` returns (`none`
when it returns an error): the replica and sync state after the step, and
whether the step returns an error. -/
def readAndReceiveMessage {Doc SS : Type} (L : Lib Doc SS) (read : Option Frame)
    (doc : Doc) (ss : SS) : Received Doc SS :=
  match read with
  | none => ⟨doc, ss, true⟩
  | some frame =>
    if frame.messageType = BinaryMessage then
      let r := L.receiveMessage doc ss frame.payload
      if r.err then ⟨r.doc, r.ss, true⟩ else ⟨r.doc, r.ss, false⟩
    else ⟨doc, ss, false⟩

/-! ## A reference instance of the libraries

Small engines and the RFC 4648 codec, on which the handlers can be run. -/

/-- The base64 alphabet. -/
def b64Alphabet : List Char :=
  "ABCDEFGHIJKLMNOPQRSTUVWXYZabcdefghijklmnopqrstuvwxyz0123456789+/".toList

/-- The character of a 6-bit value. -/
def b64Char (n : Nat) : Char := b64Alphabet.getD n 'A'

/-- The 6-bit value of a character of the alphabet. -/
def b64Val (c : Char) : Option Nat :=
  let i := b64Alphabet.indexOf c
  if i < 64 then some i else none

/-- The byte `n mod 256`. -/
def byteOf (n : Nat) : Fin 256 := ⟨n % 256, Nat.mod_lt _ (by decide)⟩

/-- Base64 with padding: three bytes become four characters. -/
def b64Encode : Bytes → List Char
  | [] => []
  | [a] => [b64Char (a.val / 4), b64Char (a.val % 4 * 16), '=', '=']
  | [a, b] =>
    [b64Char (a.val / 4), b64Char (a.val % 4 * 16 + b.val / 16), b64Char (b.val % 16 * 4), '=']
  | a :: b :: c :: rest =>
    b64Char (a.val / 4) :: b64Char (a.val % 4 * 16 + b.val / 16) ::
      b64Char (b.val % 16 * 4 + c.val / 64) :: b64Char (c.val % 64) :: b64Encode rest

/-- The bytes of one group of four characters, the last of which may be padding. -/
def b64Group (c0 c1 c2 c3 : Char) : Option Bytes :=
  match b64Val c0, b64Val c1 with
  | some v0, some v1 =>
    if c3 = '=' then
      if c2 = '=' then some [byteOf (v0 * 4 + v1 / 16)]
      else
        match b64Val c2 with
        | some v2 => some [byteOf (v0 * 4 + v1 / 16), byteOf (v1 % 16 * 16 + v2 / 4)]
        | none => none
    else
      match b64Val c2, b64Val c3 with
      | some v2, some v3 =>
        some [byteOf (v0 * 4 + v1 / 16), byteOf (v1 % 16 * 16 + v2 / 4),
          byteOf (v2 % 4 * 64 + v3)]
      | _, _ => none
  | _, _ => none

/-- Base64 decoding: groups of four characters, padding only in the last. -/
def b64Decode : List Char → Option Bytes
  | [] => some []
  | [c0, c1, c2, c3] => b64Group c0 c1 c2 c3
  | c0 :: c1 :: c2 :: c3 :: rest =>
    if c2 = '=' ∨ c3 = '=' then none
    else
      match b64Group c0 c1 c2 c3, b64Decode rest with
      | some g, some r => some (g ++ r)
      | _, _ => none
  | _ => none

/-- The serialization of a count: that many zero bytes. -/
def unary (n : Nat) : Bytes := List.replicate n 0

/-- The count a serialization stands for; `none` when a byte is not zero. -/
def ofUnary (b : Bytes) : Option Nat :=
  if b.all (fun x => x == 0) then some b.length else none

/-- A counting engine: a replica holds the changes `1..doc`, a sync state is the
number of changes the peer is known to hold, and one message carries one more
change. -/
def countingLib : Lib Nat Nat where
  load := ofUnary
  save := unary
  newSyncState := fun _ => 0
  loadSyncState := fun _ cookie => ofUnary cookie
  generateMessage := fun doc ss => if ss < doc then (some (unary (ss + 1)), ss + 1) else (none, ss)
  receiveMessage := fun doc ss msg =>
    match ofUnary msg with
    | some k => ⟨max doc k, max ss k, false⟩
    | none => ⟨doc, ss, true⟩
  saveSyncState := unary
  encodeToString := fun b => String.mk (b64Encode b)
  decodeString := fun s => b64Decode s.data

/-- The counting engine with a cookie that keeps no record: loading it gives
the sync state of a peer that holds nothing. -/
def forgetfulLib : Lib Nat Nat :=
  { countingLib with
    saveSyncState := fun _ => []
    loadSyncState := fun _ _ => some 0 }

/-- A database whose store "default" points at one snapshot, of the counting
or of the announcing engine, holding `n` changes. -/
def seededDB (n : Nat) : DB :=
  ⟨[⟨"default", some "1"⟩], [⟨"1", "default", String.mk (b64Encode (unary n))⟩]⟩

/-! ## Vocabulary of the statements -/

/-- The results of `n` successive calls of `GenerateMessage`, each on the sync
state the previous call left. -/
def successive {Doc SS : Type} (L : Lib Doc SS) (doc : Doc) : Nat → SS → List (Option Bytes)
  | 0, _ => []
  | n + 1, ss =>
    (L.generateMessage doc ss).1 :: successive L doc n (L.generateMessage doc ss).2

/-- The sync state after `n` successive calls of `GenerateMessage`. -/
def afterCalls {Doc SS : Type} (L : Lib Doc SS) (doc : Doc) : Nat → SS → SS
  | 0, ss => ss
  | n + 1, ss => afterCalls L doc n (L.generateMessage doc ss).2

/-- The messages of the calls before the first one that reports no valid
message. -/
def validPrefix : List (Option Bytes) → List Bytes
  | some msg :: rest => msg :: validPrefix rest
  | _ => []

/-- A library instrumented to tally the calls of `ReceiveMessage`: the replica
carries the number of calls made so far. -/
def tallied {Doc SS : Type} (L : Lib Doc SS) : Lib (Doc × Nat) SS where
  load := fun b => (L.load b).map fun doc => (doc, 0)
  save := fun doc => L.save doc.1
  newSyncState := fun doc => L.newSyncState doc.1
  loadSyncState := fun doc cookie => L.loadSyncState doc.1 cookie
  generateMessage := fun doc ss => L.generateMessage doc.1 ss
  receiveMessage := fun doc ss msg =>
    ⟨((L.receiveMessage doc.1 ss msg).doc, doc.2 + 1), (L.receiveMessage doc.1 ss msg).ss,
      (L.receiveMessage doc.1 ss msg).err⟩
  saveSyncState := L.saveSyncState
  encodeToString := L.encodeToString
  decodeString := L.decodeString

/-- A request to one of the two handlers that write the tables, with what the
outside world does while it is served. -/
inductive Call where
  | createNew (env : Env) (req : Request NewInputs)
  | sync (env : Env) (req : Request SyncInputs)

/-- The tables after one call is served. -/
def serve {Doc SS : Type} (L : Lib Doc SS) (db : DB) : Call → DB
  | .createNew env req => (server.createNew L env req db).2
  | .sync env req => (server.sync L env req db).2

/-- The tables after a sequence of calls is served, one after the other. -/
def serveAll {Doc SS : Type} (L : Lib Doc SS) (db : DB) (calls : List Call) : DB :=
  calls.foldl (serve L) db

/-- Pointer/snapshot consistency: every row of `stores` names, in `snapshot_id`,
a row of `snapshots` that belongs to the same store. -/
def PointerConsistent (db : DB) : Prop :=
  ∀ st ∈ db.stores, ∃ sn ∈ db.snapshots, st.snapshot_id = some sn.id ∧ sn.store_id = st.id

/-- What resuming a round would ask of the libraries: the codec, the replica
and the sync state come back as they were saved, and a sync state on which
`GenerateMessage` has reported no valid message reports none on the next call
either.  The counting engine meets it; an engine whose cookie leaves out part
of the sync state, as `announcingLib`, does not.  Only the lemmas on libraries
that resume assume it. -/
structure Resumes {Doc SS : Type} (L : Lib Doc SS) : Prop where
  decode_encode : ∀ b, L.decodeString (L.encodeToString b) = some b
  load_save : ∀ doc, L.load (L.save doc) = some doc
  loadSyncState_save : ∀ doc ss, L.loadSyncState doc (L.saveSyncState ss) = some ss
  quiet : ∀ doc ss, (L.generateMessage doc ss).1 = none →
    (L.generateMessage doc (L.generateMessage doc ss).2).1 = none

/-- No call of the request fails for a reason outside the program. -/
def FaultFree (env : Env) : Prop :=
  env.beginTxErr = false ∧ env.queryErr = false ∧ env.insertErr = false ∧
  env.insertRowsErr = false ∧ env.insertStoreErr = false ∧ env.updateErr = false ∧
  env.updateRowsErr = false ∧ env.commitErr = false ∧ env.encodeErr = false

/-! ## Streaming session of `cmd/four/pkg`: the two directions of `Sync` -/

/-- Outcome of `generateAndWriteMessage`: the sync state after the call, the
frame handed to `conn.WriteMessage` (if a message was generated), and the
`(bool, error)` the function returns (`err` stands for a non-nil error). -/
structure Written (SS : Type) where
  ss : SS
  frame : Option Frame
  ok : Bool
  err : Bool

/-- `generateAndWriteMessage`, given whether `conn.WriteMessage` fails when it
is called. -/
def generateAndWriteMessage {Doc SS : Type} (L : Lib Doc SS) (writeFails : Bool)
    (doc : Doc) (ss : SS) : Written SS :=
  match L.generateMessage doc ss with
  | (some msg, ss') =>
    if writeFails then ⟨ss', some ⟨BinaryMessage, msg⟩, false, true⟩
    else ⟨ss', some ⟨BinaryMessage, msg⟩, true, false⟩
  | (none, ss') => ⟨ss', none, false, false⟩

/-- How the receive loop of `Sync` (lines 57-62) stands after the reads it was
given: the replica and the sync state, and whether the loop has returned
(the deferred `conn.Close()` has then run). -/
structure ReceiveEnd (Doc SS : Type) where
  doc : Doc
  ss : SS
  returned : Bool

/-- The receive loop of `Sync`, given what the successive `conn.ReadMessage()`
calls return: it runs `readAndReceiveMessage` until one returns an error; with
no read left it is blocked in `ReadMessage`. -/
def receiveLoop {Doc SS : Type} (L : Lib Doc SS) :
    List (Option Frame) → Doc → SS → ReceiveEnd Doc SS
  | [], doc, ss => ⟨doc, ss, false⟩
  | read :: rest, doc, ss =>
    let r := readAndReceiveMessage L read doc ss
    if r.err then ⟨r.doc, r.ss, true⟩ else receiveLoop L rest r.doc r.ss

/-- How a drain loop of the send direction ends: `break` when nothing more is
generated, or `return` on a write error. -/
inductive DrainEnd where
  | drained
  | writeFailed
deriving DecidableEq, Repr

/-- What a drain loop did: the sync state it left, the frames it wrote, the
number of `WriteMessage` calls made on the connection so far, and how it
ended. -/
structure Drain (SS : Type) where
  ss : SS
  sent : List Frame
  writes : Nat
  ending : DrainEnd

/-- One drain loop of the send direction of `Sync` (lines 70-77 and 84-91):
`generateAndWriteMessage` is run until it returns an error or `ok = false`.
`writeFails i` says whether the `i`-th `WriteMessage` call on the connection
fails; `none` when the fuel runs out before the loop ends. -/
def drain {Doc SS : Type} (L : Lib Doc SS) (doc : Doc) (writeFails : Nat → Bool) :
    Nat → Nat → SS → List Frame → Option (Drain SS)
  | 0, _, _, _ => none
  | fuel + 1, i, ss, sent =>
    let w := generateAndWriteMessage L (writeFails i) doc ss
    if w.err then some ⟨w.ss, sent, i + 1, .writeFailed⟩
    else if w.ok then drain L doc writeFails fuel (i + 1) w.ss (sent ++ w.frame.toList)
    else some ⟨w.ss, sent, i, .drained⟩

/-- What the `select` of the send direction receives: a tick of the ticker or
the cancellation of the context. -/
inductive Wake where
  | tick
  | done
deriving DecidableEq, Repr

/-- How the send direction of `Sync` stands: the sync state, the frames
written, and whether the goroutine has returned (the deferred `conn.Close()`
has then run). -/
structure SendEnd (SS : Type) where
  ss : SS
  sent : List Frame
  returned : Bool

/-- The ticker loop of the send direction (lines 81-95): a tick runs a drain
loop, the cancellation returns; with no wake-up left the goroutine is blocked
in `select`.  `none` when a drain runs out of fuel. -/
def tickerLoop {Doc SS : Type} (L : Lib Doc SS) (doc : Doc) (writeFails : Nat → Bool)
    (fuel : Nat) : List Wake → Nat → SS → List Frame → Option (SendEnd SS)
  | [], _, ss, sent => some ⟨ss, sent, false⟩
  | .done :: _, _, ss, sent => some ⟨ss, sent, true⟩
  | .tick :: rest, i, ss, sent =>
    match drain L doc writeFails fuel i ss sent with
    | none => none
    | some d =>
      match d.ending with
      | .writeFailed => some ⟨d.ss, d.sent, true⟩
      | .drained => tickerLoop L doc writeFails fuel rest d.writes d.ss d.sent

/-- The send direction of `Sync` (lines 66-96): a first drain loop, then the
ticker loop. -/
def sendDirection {Doc SS : Type} (L : Lib Doc SS) (doc : Doc) (writeFails : Nat → Bool)
    (fuel : Nat) (wakes : List Wake) (ss : SS) : Option (SendEnd SS) :=
  match drain L doc writeFails fuel 0 ss [] with
  | none => none
  | some d =>
    match d.ending with
    | .writeFailed => some ⟨d.ss, d.sent, true⟩
    | .drained => tickerLoop L doc writeFails fuel wakes d.writes d.ss d.sent

/-! ## The store cache and the durable table of `cmd/four/server` -/

/-- A row of the table `stores (id text not null primary key, content text)`
of `cmd/four/server`: the content may be NULL. -/
structure ContentRow where
  id : String
  content : Option String
deriving DecidableEq, Repr

/-- A map with string keys, as a list of entries with at most one entry per
key: the cache `sync.Map` of the server, the files of a directory. -/
abbrev StringMap (α : Type) := List (String × α)

/-- The entry of a key, if any (`cache.Load`). -/
def mapLoad {α : Type} (m : StringMap α) (key : String) : Option α :=
  (m.find? fun e => e.1 == key).map Prod.snd

/-- The map with the entry of a key set (`cache.Store`). -/
def mapStore {α : Type} (m : StringMap α) (key : String) (value : α) : StringMap α :=
  (key, value) :: m.filter fun e => e.1 != key

/-- What can fail, for reasons outside the program, while `server.init` of
`cmd/four` runs. -/
structure InitEnv where
  /-- Whether `CREATE TABLE IF NOT EXISTS` returns an error. -/
  createErr : Bool := false
  /-- Whether `INSERT OR IGNORE` returns an error. -/
  insertErr : Bool := false
  /-- Whether `Query` returns an error. -/
  queryErr : Bool := false
  /-- After how many rows `res.Next()` reports the end because the iteration
  failed (`res.Err()` is not looked at); `none` when it does not fail. -/
  nextErrAfter : Option Nat := none
deriving DecidableEq, Repr

/-- The statement `INSERT OR IGNORE INTO stores (id, content) VALUES (?, ?)`:
a row whose key is taken is dropped without an error. -/
def insertOrIgnore (rows : List ContentRow) (row : ContentRow) : List ContentRow :=
  if rows.any (fun r => r.id == row.id) then rows else rows ++ [row]

/-- The loop over the rows of `SELECT id, content FROM stores` in `server.init`
(lines 166-179): each row is scanned into two strings (a NULL content is a
scan error), decoded, loaded and stored in the cache; `none` when a row makes
`init` return an error. -/
def loadRows {Doc SS : Type} (L : Lib Doc SS) :
    List ContentRow → StringMap Doc → Option (StringMap Doc)
  | [], cache => some cache
  | row :: rest, cache =>
    match row.content with
    | none => none
    | some rawSave =>
      match L.decodeString rawSave with
      | none => none
      | some raw =>
        match L.load raw with
        | none => none
        | some doc => loadRows L rest (mapStore cache row.id doc)

/-- What `server.init` of `cmd/four` leaves: the table (`none` when it does not
exist) and the cache (`none` when `init` returns an error). -/
structure InitEnd (Doc : Type) where
  table : Option (List ContentRow)
  cache : Option (StringMap Doc)

namespace Four

/-- `server.init` of `cmd/four`: creates the table when missing, seeds the
store "default" with an empty replica when it has no row, and loads every row
into the cache.  `newDoc` is `automerge.New()`. -/
def server.init {Doc SS : Type} (L : Lib Doc SS) (newDoc : Doc) (env : InitEnv)
    (table : Option (List ContentRow)) : InitEnd Doc :=
  if env.createErr then ⟨table, none⟩
  else
    let rows0 := createTableIfNotExists table
    if env.insertErr then ⟨some rows0, none⟩
    else
      let rows1 := insertOrIgnore rows0 ⟨"default", some (L.encodeToString (L.save newDoc))⟩
      if env.queryErr then ⟨some rows1, none⟩
      else
        match env.nextErrAfter with
        | none => ⟨some rows1, loadRows L rows1 []⟩
        | some k => ⟨some rows1, loadRows L (rows1.take k) []⟩

end Four

/-- The statement `UPDATE stores SET content = ? WHERE id = ? AND content != ?`
with the new content given twice: the rows of the store whose content is not
NULL and differs are rewritten; returns the table and the number of rows
affected. -/
def updateContent (rows : List ContentRow) (newContent storeId : String) :
    List ContentRow × Nat :=
  (rows.map fun r =>
      if r.id = storeId ∧ r.content ≠ none ∧ r.content ≠ some newContent then
        { r with content := some newContent }
      else r,
   rows.countP fun r => r.id == storeId && r.content != none && r.content != some newContent)

/-- What a backup sweep did: the table it left and the stores whose `UPDATE`
affected a row (those it logs as backed up). -/
structure Swept where
  rows : List ContentRow
  written : List String
deriving DecidableEq, Repr

/-- One backup sweep (lines 74-87 of `mainInner`): for every cached replica the
base64 of its serialization is written to its row when the content differs.
`execErr storeId` says whether `ExecContext` returns an error for that store
(the error is logged and the sweep goes on). -/
def sweep {Doc SS : Type} (L : Lib Doc SS) (execErr : String → Bool) :
    StringMap Doc → List ContentRow → List String → Swept
  | [], rows, written => ⟨rows, written⟩
  | (storeId, doc) :: rest, rows, written =>
    let newContent := L.encodeToString (L.save doc)
    if execErr storeId then sweep L execErr rest rows written
    else
      let u := updateContent rows newContent storeId
      if u.2 > 0 then sweep L execErr rest u.1 (written ++ [storeId])
      else sweep L execErr rest u.1 written

/-- What the `select` of the backup goroutine receives: a tick, with the cache
as it is then and the `ExecContext` failures of that sweep, or the
cancellation of the context. -/
inductive BackupWake (Doc : Type) where
  | tick (cache : StringMap Doc) (execErr : String → Bool)
  | done

/-- The backup goroutine (lines 67-92 of `mainInner`): a sweep on every tick,
return on cancellation; gives the table it leaves. -/
def backupLoop {Doc SS : Type} (L : Lib Doc SS) :
    List (BackupWake Doc) → List ContentRow → List ContentRow
  | [], rows => rows
  | .done :: _, rows => rows
  | .tick cache execErr :: rest, rows => backupLoop L rest (sweep L execErr cache rows []).rows

/-- The path `filepath.Join(os.TempDir(), doc.ActorID() + ".automerge")`, for a
temporary directory that is a clean path (not empty, no trailing separator)
and an actor id without separators, where `Join` only puts the separator in
between. -/
def dumpPath (tempDir actorID : String) : String :=
  tempDir ++ "/" ++ actorID ++ ".automerge"

/-- The dump of the cached replicas at the end of `mainInner` (lines 113-131):
each replica's serialization is written to a file of the temp directory named
after its actor id.  `createErr` and `writeErr` say for which stores
`os.Create` and `f.Write` fail (a failed write is taken to leave the created
file empty); the rendering to a fresh SVG file is left out. -/
def dumpAll {Doc SS : Type} (L : Lib Doc SS) (actorID : Doc → String) (tempDir : String)
    (createErr writeErr : String → Bool) :
    StringMap Doc → StringMap Bytes → StringMap Bytes
  | [], files => files
  | (storeId, doc) :: rest, files =>
    if createErr storeId then dumpAll L actorID tempDir createErr writeErr rest files
    else if writeErr storeId then
      dumpAll L actorID tempDir createErr writeErr rest
        (mapStore files (dumpPath tempDir (actorID doc)) [])
    else
      dumpAll L actorID tempDir createErr writeErr rest
        (mapStore files (dumpPath tempDir (actorID doc)) (L.save doc))

/-- What the shutdown of the server leaves: the table and the files. -/
structure ShutDown where
  rows : List ContentRow
  files : StringMap Bytes
deriving DecidableEq, Repr

/-- The shutdown sequence of `mainInner` (lines 106-133): the context is
cancelled, the backup goroutine is waited for, and the cached replicas are
dumped.  Until its `select` takes the cancellation the backup goroutine may
take `lateTicks` more ticks, whose `ExecContext` calls fail on the cancelled
context. -/
def shutdown {Doc SS : Type} (L : Lib Doc SS) (actorID : Doc → String) (tempDir : String)
    (createErr writeErr : String → Bool) (lateTicks : Nat) (cache : StringMap Doc)
    (rows : List ContentRow) (files : StringMap Bytes) : ShutDown :=
  ⟨backupLoop L
      ((List.replicate lateTicks (BackupWake.tick cache fun _ => true)) ++ [BackupWake.done])
      rows,
    dumpAll L actorID tempDir createErr writeErr cache files⟩

/-! ## `Sync` of `cmd/four/pkg`: the two goroutines on one sync state -/

/-- Where the send goroutine of `Sync` stands: in a drain loop, blocked in
`select`, or returned. -/
inductive SendState where
  | draining
  | waiting
  | returned
deriving DecidableEq, Repr

/-- A session of `Sync`: the replica and the sync state both goroutines work
on, whether the receive goroutine is still in its loop, where the send
goroutine stands, whether `conn.Close()` has run, and the frames written. -/
structure Session (Doc SS : Type) where
  doc : Doc
  ss : SS
  receiving : Bool
  sending : SendState
  closed : Bool
  sent : List Frame

/-- What happens next in a session: `ReadMessage` returns to the receive
goroutine; the send goroutine runs `generateAndWriteMessage` once, its write
(if one is made) failing or not; or the `select` of the send goroutine
receives a tick or the cancellation. -/
inductive Event where
  | read (r : Option Frame)
  | send (writeFails : Bool)
  | wake (w : Wake)
deriving DecidableEq, Repr

/-- One step of a session.  An event for a goroutine that is not at that
point of its code is not taken; on a closed connection reads and writes
fail; a goroutine that returns closes the connection (its deferred
`conn.Close()`). -/
def Session.step {Doc SS : Type} (L : Lib Doc SS) (s : Session Doc SS) :
    Event → Session Doc SS
  | .read r =>
    if s.receiving then
      let res := readAndReceiveMessage L (if s.closed then none else r) s.doc s.ss
      if res.err then { s with doc := res.doc, ss := res.ss, receiving := false, closed := true }
      else { s with doc := res.doc, ss := res.ss }
    else s
  | .send writeFails =>
    match s.sending with
    | .draining =>
      let w := generateAndWriteMessage L (writeFails || s.closed) s.doc s.ss
      if w.err then { s with ss := w.ss, sending := .returned, closed := true }
      else if w.ok then { s with ss := w.ss, sent := s.sent ++ w.frame.toList }
      else { s with ss := w.ss, sending := .waiting }
    | _ => s
  | .wake .tick =>
    match s.sending with
    | .waiting => { s with sending := .draining }
    | _ => s
  | .wake .done =>
    match s.sending with
    | .waiting => { s with sending := .returned, closed := true }
    | _ => s

/-- The session after a sequence of events, from the start of `Sync`: both
goroutines running, the send goroutine in its first drain loop. -/
def Session.run {Doc SS : Type} (L : Lib Doc SS) (events : List Event) (doc : Doc) (ss : SS) :
    Session Doc SS :=
  events.foldl (Session.step L) ⟨doc, ss, true, .draining, false, []⟩

/-- `Sync`: `none` while `wg.Wait()` is blocked (a goroutine has not returned
after the events given), else the error `Sync` returns (`none` for nil); the
only return statement is `return nil`. -/
def Sync {Doc SS : Type} (L : Lib Doc SS) (events : List Event) (doc : Doc) (ss : SS) :
    Option (Option String) :=
  let s := Session.run L events doc ss
  if s.receiving = false ∧ s.sending = .returned then some none else none

namespace Four

/-- `client.connectAndSync`: `none` while `Sync` has not returned, else the
error returned (`none` for nil). -/
def client.connectAndSync {Doc SS : Type} (L : Lib Doc SS) (dialErr : Bool)
    (events : List Event) (doc : Doc) : Option (Option String) :=
  if dialErr then some (some "failed to dial")
  else
    match Sync L events doc (L.newSyncState doc) with
    | none => none
    | some (some err) => some (some ("failed to sync: " ++ err))
    | some none => some none

/-- What `server.syncStore` did: the status the handler itself wrote (if any;
what `Upgrader.Upgrade` writes to the response when it fails is not recorded),
whether it has returned, and whether it took the branch `failed to sync`. -/
structure SyncStoreEnd where
  status : Option Nat
  returned : Bool
  syncFailed : Bool
deriving DecidableEq, Repr

/-- `server.syncStore`: looks the store up in the cache, upgrades the
connection and runs `Sync` on a fresh sync state. -/
def server.syncStore {Doc SS : Type} (L : Lib Doc SS) (cache : StringMap Doc)
    (store : String) (upgradeErr : Bool) (events : List Event) : SyncStoreEnd :=
  match mapLoad cache store with
  | none => ⟨some StatusNotFound, true, false⟩
  | some fromCache =>
    if upgradeErr then ⟨none, true, false⟩
    else
      match Sync L events fromCache (L.newSyncState fromCache) with
      | none => ⟨none, false, false⟩
      | some (some _) => ⟨none, true, true⟩
      | some none => ⟨none, true, false⟩

end Four

/-! ## The cookie on the wire between `cmd/three/server` and `cmd/three/client` -/

/-- A JSON value, as far as the field `cookie` of a body goes: `other` stands
for the values that do not decode into a `[]byte` nor into a string.  Arrays
of numbers, which `encoding/json` also reads into a `[]byte`, are written by
neither program and are left out. -/
inductive JsonValue where
  | null
  | string (s : String)
  | other
deriving DecidableEq, Repr

/-- How `encoding/json` writes a `[]byte`: `null` for a nil slice, else the
string of its base64. -/
def jsonOfBytes : Option Bytes → JsonValue
  | none => .null
  | some b => .string (String.mk (b64Encode b))

/-- How `encoding/json` reads into a `[]byte`: `null` gives a nil slice, a
string is base64-decoded (an error when it is not base64; the line breaks
that the decoder of Go skips are not modelled), `other` is an error
(`none`). -/
def bytesOfJson : JsonValue → Option (Option Bytes)
  | .null => some none
  | .string s => (b64Decode s.data).map some
  | .other => none

/-- How `encoding/json` writes a `*string`: `null` for nil, else the string. -/
def jsonOfStringPtr : Option String → JsonValue
  | none => .null
  | some s => .string s

/-- How `encoding/json` reads into a `string` that holds `current`: `null`
leaves it, a string replaces it, anything else is an error (`none`). -/
def stringOfJson (current : String) : JsonValue → Option String
  | .null => some current
  | .string s => some s
  | .other => none

/-- The field `cookie` of the body `server.sync` writes (lines 369-372). -/
def responseCookie (finalCookie : Bytes) : JsonValue :=
  jsonOfBytes (some finalCookie)

/-- The client's `lastCookie` after a response (lines 149-160 of the client's
`mainInner`): the body is decoded into `out.Cookie`, a string, which replaces
`lastCookie` unless it is empty; a body that does not decode leaves it. -/
def clientStoreCookie (lastCookie : Option String) (cookie : JsonValue) : Option String :=
  match stringOfJson "" cookie with
  | none => lastCookie
  | some outCookie => if outCookie ≠ "" then some outCookie else lastCookie

/-- The field `cookie` of the body the client sends next (lines 125-128). -/
def requestCookie (lastCookie : Option String) : JsonValue :=
  jsonOfStringPtr lastCookie

/-- The `inputs.Cookie` that `server.sync` decodes from a body (lines 200-208);
`none` when decoding fails. -/
def parseCookie (cookie : JsonValue) : Option (Option Bytes) :=
  bytesOfJson cookie

/-- The replica a row of `stores` loads to: its content is not NULL, decodes
from base64 and loads. -/
def LoadsTo {Doc SS : Type} (L : Lib Doc SS) (row : ContentRow) (doc : Doc) : Prop :=
  ∃ rawSave raw, row.content = some rawSave ∧ L.decodeString rawSave = some raw ∧
    L.load raw = some doc

/-- A row of `stores` that `server.init` of `cmd/four` cannot load: its
content does not decode from base64, or decodes to bytes that do not load. -/
def Unloadable {Doc SS : Type} (L : Lib Doc SS) (row : ContentRow) : Prop :=
  ∃ rawSave, row.content = some rawSave ∧
    (L.decodeString rawSave = none ∨
      ∃ raw, L.decodeString rawSave = some raw ∧ L.load raw = none)

/-! ## Theorems -/

section Theorems

variable {Doc SS : Type}

/-- C1: in `server.sync`, a request with a nil cookie and a non-empty message
list is answered with status 400 and leaves both tables as they were
(the request is a decodable POST and the transaction opens). -/
theorem sync_messages_without_cookie_rejected (L : Lib Doc SS) (env : Env)
    (req : Request SyncInputs) (inputs : SyncInputs) (db : DB)
    (hmethod : req.method = "POST") (hbody : req.body = some inputs)
    (hbegin : env.beginTxErr = false)
    (hcookie : inputs.cookie = none) (hmessages : inputs.messages ≠ []) :
    server.sync L env req db = (Response.status 400, db) := by
  have hlen : 0 < inputs.messages.length := List.length_pos.mpr hmessages
  simp [server.sync, hmethod, hbody, hbegin, hcookie, syncNoCookie, hlen, StatusBadRequest]

/-- Witness of C1: one message without a cookie against a seeded database. -/
theorem sync_messages_without_cookie_rejected_witness :
    server.sync countingLib { now := 2 } ⟨"POST", some ⟨none, [unary 1]⟩⟩ (seededDB 3)
      = (Response.status 400, seededDB 3) :=
  sync_messages_without_cookie_rejected countingLib { now := 2 } ⟨"POST", some ⟨none, [unary 1]⟩⟩
    ⟨none, [unary 1]⟩ (seededDB 3) rfl rfl rfl rfl (by decide)

/-- C2: in `server.sync`, a request with a nil cookie and no messages, against
a store whose current snapshot decodes and loads, is answered with an empty
message list and the serialization of a fresh sync state on the loaded
replica, and leaves both tables as they were. -/
theorem sync_bootstrap_fresh_state (L : Lib Doc SS) (env : Env)
    (req : Request SyncInputs) (inputs : SyncInputs) (db : DB)
    (rawContent : String) (decodedContent : Bytes) (doc : Doc)
    (hmethod : req.method = "POST") (hbody : req.body = some inputs)
    (hbegin : env.beginTxErr = false) (hquery : env.queryErr = false)
    (hencode : env.encodeErr = false)
    (hcookie : inputs.cookie = none) (hmessages : inputs.messages = [])
    (hrow : queryRow db defaultStore = some rawContent)
    (hdecode : L.decodeString rawContent = some decodedContent)
    (hload : L.load decodedContent = some doc) :
    server.sync L env req db
      = (Response.json (L.saveSyncState (L.newSyncState doc)) [], db) := by
  simp [server.sync, hmethod, hbody, hbegin, hcookie, syncNoCookie, hmessages, hquery, hrow,
    hdecode, hload, respond, hencode]

/-- Witness of C2: the bootstrap fetch against a seeded database. -/
theorem sync_bootstrap_fresh_state_witness :
    server.sync countingLib { now := 2 } ⟨"POST", some ⟨none, []⟩⟩ (seededDB 3)
      = (Response.json [] [], seededDB 3) :=
  sync_bootstrap_fresh_state countingLib { now := 2 } ⟨"POST", some ⟨none, []⟩⟩ ⟨none, []⟩
    (seededDB 3) "AAAA" (unary 3) 3 rfl rfl rfl rfl rfl rfl rfl (by decide) (by decide)
    (by decide)

/-! ### Shared lemmas on the handler -/

/-- A committed `persist` added exactly one snapshot row under a fresh key and
repointed the rows of the store. -/
theorem persist_some {env : Env} {db db' : DB} {finalState : String}
    (h : persist env db finalState = some db') :
    db'.snapshots = db.snapshots ++ [⟨sprintfD env.now, defaultStore, finalState⟩] ∧
    db'.stores = db.stores.map (fun r =>
      if r.id = defaultStore then { r with snapshot_id := some (sprintfD env.now) } else r) ∧
    (∀ r ∈ db.snapshots, r.id ≠ sprintfD env.now) ∧
    (∃ r ∈ db.stores, r.id = defaultStore) := by
  unfold persist at h
  simp only [insertSnapshot, updateStore] at h
  split at h
  · simp at h
  · split at h
    · simp at h
    · rename_i tx1 r1 hins
      split at hins
      · simp at hins
      · rename_i hfresh
        simp only [Option.some.injEq, Prod.mk.injEq] at hins
        obtain ⟨htx, hr⟩ := hins
        subst htx
        subst hr
        simp only [Bool.not_eq_true, List.any_eq_false, beq_iff_eq] at hfresh
        split at h
        · simp at h
        · split at h
          · simp at h
          · split at h
            · simp at h
            · split at h
              · simp at h
              · split at h
                · simp at h
                · rename_i hcount
                  split at h
                  · simp at h
                  · simp only [Option.some.injEq] at h
                    subst h
                    refine ⟨rfl, rfl, fun r hr => hfresh r hr, ?_⟩
                    have hpos : 0 < db.stores.countP (fun r => r.id == defaultStore) :=
                      Nat.pos_of_ne_zero hcount
                    obtain ⟨r, hr, hid⟩ := List.countP_pos_iff.mp hpos
                    exact ⟨r, hr, by simpa using hid⟩

/-- Whatever `syncWithCookie` answers, the tables are as before or as one
committed `persist` left them. -/
theorem syncWithCookie_db (L : Lib Doc SS) (env : Env) (cookie : Bytes) (inputs : SyncInputs)
    (db : DB) :
    (syncWithCookie L env cookie inputs db).2 = db ∨
    ∃ finalState, persist env db finalState = some (syncWithCookie L env cookie inputs db).2 := by
  unfold syncWithCookie
  dsimp only
  repeat' split
  all_goals first
    | exact Or.inl rfl
    | exact Or.inr ⟨_, by assumption⟩

/-- A JSON answer of `syncWithCookie` means the whole round went through: the
round opened, the messages were applied, the state was committed and the body
was written. -/
theorem syncWithCookie_json {L : Lib Doc SS} {env : Env} {cookie : Bytes} {inputs : SyncInputs}
    {db db' : DB} {c : Bytes} {msgs : List Bytes}
    (h : syncWithCookie L env cookie inputs db = (Response.json c msgs, db')) :
    ∃ doc ss doc2 ss2,
      openRound L env db cookie = some (doc, ss) ∧
      receiveAll L doc (generateBatch L doc 100 ss []).2 inputs.messages = some (doc2, ss2) ∧
      persist env db (L.encodeToString (L.save doc2)) = some db' ∧
      env.encodeErr = false ∧
      c = L.saveSyncState
        (generateBatch L doc2 100 ss2 (generateBatch L doc 100 ss []).1).2 ∧
      msgs = (generateBatch L doc2 100 ss2 (generateBatch L doc 100 ss []).1).1 := by
  unfold syncWithCookie at h
  dsimp only at h
  split at h
  · simp at h
  · rename_i doc ss hopen
    split at h
    · simp at h
    · rename_i doc2 ss2 hrecv
      split at h
      · simp at h
      · rename_i dbc hpersist
        simp only [respond] at h
        split at h
        · simp at h
        · rename_i henc
          simp only [Prod.mk.injEq, Response.json.injEq] at h
          obtain ⟨⟨hc, hm⟩, hdb⟩ := h
          subst hdb
          exact ⟨doc, ss, doc2, ss2, hopen, hrecv, hpersist, by simpa using henc, hc.symm,
            hm.symm⟩

/-- A JSON answer of `server.sync` to a request with a cookie is one of
`syncWithCookie`. -/
theorem sync_json_with_cookie {L : Lib Doc SS} {env : Env} {req : Request SyncInputs}
    {inputs : SyncInputs} {cookie : Bytes} {db db' : DB} {c : Bytes} {msgs : List Bytes}
    (hbody : req.body = some inputs) (hcookie : inputs.cookie = some cookie)
    (h : server.sync L env req db = (Response.json c msgs, db')) :
    syncWithCookie L env cookie inputs db = (Response.json c msgs, db') := by
  unfold server.sync at h
  rw [hbody] at h
  dsimp only at h
  rw [hcookie] at h
  dsimp only at h
  split at h
  · simp at h
  · split at h
    · simp at h
    · exact h

/-- What an opened round read: the current snapshot row, its decoding, the
replica it loads to and the sync state of the cookie. -/
theorem openRound_some {L : Lib Doc SS} {env : Env} {db : DB} {cookie : Bytes} {doc : Doc}
    {ss : SS} (h : openRound L env db cookie = some (doc, ss)) :
    env.queryErr = false ∧
    ∃ rawContent decodedContent,
      queryRow db defaultStore = some rawContent ∧
      L.decodeString rawContent = some decodedContent ∧
      L.load decodedContent = some doc ∧
      L.loadSyncState doc cookie = some ss := by
  unfold openRound at h
  split at h
  · simp at h
  · rename_i hq
    split at h
    · simp at h
    · rename_i rawContent hrow
      split at h
      · simp at h
      · rename_i decodedContent hdec
        split at h
        · simp at h
        · rename_i doc0 hload
          split at h
          · simp at h
          · rename_i ss0 hss
            simp only [Option.some.injEq, Prod.mk.injEq] at h
            obtain ⟨hd, hs⟩ := h
            subst hd
            subst hs
            exact ⟨by simpa using hq, rawContent, decodedContent, hrow, hdec, hload, hss⟩

/-- The receive loop on a list split at one message: the messages before it
are applied first, and an error on it ends the loop. -/
theorem receiveAll_append (L : Lib Doc SS) (doc : Doc) (ss : SS) (pre : List Bytes)
    (message : Bytes) (post : List Bytes) :
    receiveAll L doc ss (pre ++ message :: post) =
      match receiveAll L doc ss pre with
      | none => none
      | some (doc1, ss1) =>
        if (L.receiveMessage doc1 ss1 message).err then none
        else receiveAll L (L.receiveMessage doc1 ss1 message).doc
          (L.receiveMessage doc1 ss1 message).ss post := by
  induction pre generalizing doc ss with
  | nil => simp [receiveAll]
  | cons m rest ih =>
    simp only [List.cons_append, receiveAll]
    split
    · simp
    · exact ih _ _

/-! ### C3: effect of a successful round -/

/-- C3: a round of `server.sync` with a cookie that is answered with a JSON
body changed the tables in exactly this way: one snapshot row was appended,
under a key no earlier row has, for store "default" and holding the base64 of
the serialization of the replica after all inbound messages were applied; the
earlier snapshot rows are as before; and the rows of store "default" (there is
one) point at the new snapshot, the other store rows being as before. -/
theorem sync_success_appends_snapshot_and_repoints (L : Lib Doc SS) (env : Env)
    (req : Request SyncInputs) (inputs : SyncInputs) (cookie : Bytes) (db db' : DB)
    (c : Bytes) (msgs : List Bytes)
    (hbody : req.body = some inputs) (hcookie : inputs.cookie = some cookie)
    (hok : server.sync L env req db = (Response.json c msgs, db')) :
    ∃ doc ss doc2 ss2,
      openRound L env db cookie = some (doc, ss) ∧
      receiveAll L doc (generateBatch L doc 100 ss []).2 inputs.messages = some (doc2, ss2) ∧
      db'.snapshots
        = db.snapshots ++ [⟨sprintfD env.now, "default", L.encodeToString (L.save doc2)⟩] ∧
      (∀ r ∈ db.snapshots, r.id ≠ sprintfD env.now) ∧
      db'.stores = db.stores.map (fun r =>
        if r.id = "default" then { r with snapshot_id := some (sprintfD env.now) } else r) ∧
      (∃ r ∈ db'.stores, r.id = "default") ∧
      (∀ r ∈ db'.stores, r.id = "default" → r.snapshot_id = some (sprintfD env.now)) := by
  obtain ⟨doc, ss, doc2, ss2, hopen, hrecv, hpersist, -, -, -⟩ :=
    syncWithCookie_json (sync_json_with_cookie hbody hcookie hok)
  obtain ⟨hsnap, hstores, hfresh, r0, hr0, hid0⟩ := persist_some hpersist
  refine ⟨doc, ss, doc2, ss2, hopen, hrecv, hsnap, hfresh, hstores, ?_, ?_⟩
  · rw [hstores]
    refine ⟨_, List.mem_map.mpr ⟨r0, hr0, rfl⟩, ?_⟩
    rw [if_pos hid0]
    exact hid0
  · intro r hr hid
    rw [hstores] at hr
    obtain ⟨r1, -, hr1⟩ := List.mem_map.mp hr
    by_cases h1 : r1.id = defaultStore
    · rw [if_pos h1] at hr1
      rw [← hr1]
    · rw [if_neg h1] at hr1
      rw [hr1] at h1
      exact absurd hid h1

/-- Witness of C3: the peer's cookie says it holds nothing, the replica holds
three changes and the request brings a fifth; the round appends snapshot "2"
holding five changes and repoints the store. -/
theorem sync_success_appends_snapshot_and_repoints_witness :
    server.sync countingLib { now := 2 } ⟨"POST", some ⟨some [], [unary 5]⟩⟩ (seededDB 3)
      = (Response.json (unary 5) [unary 1, unary 2, unary 3],
          ⟨[⟨"default", some "2"⟩],
            [⟨"1", "default", "AAAA"⟩, ⟨"2", "default", "AAAAAAA="⟩]⟩) ∧
    ∃ doc ss doc2 ss2,
      openRound countingLib { now := 2 } (seededDB 3) [] = some (doc, ss) ∧
      receiveAll countingLib doc (generateBatch countingLib doc 100 ss []).2 [unary 5]
        = some (doc2, ss2) ∧
      [(⟨"1", "default", "AAAA"⟩ : SnapshotRow), ⟨"2", "default", "AAAAAAA="⟩]
        = (seededDB 3).snapshots
          ++ [⟨sprintfD 2, "default", countingLib.encodeToString (countingLib.save doc2)⟩] ∧
      (∀ r ∈ (seededDB 3).snapshots, r.id ≠ sprintfD 2) ∧
      [(⟨"default", some "2"⟩ : StoreRow)] = (seededDB 3).stores.map (fun r =>
        if r.id = "default" then { r with snapshot_id := some (sprintfD 2) } else r) ∧
      (∃ r ∈ [(⟨"default", some "2"⟩ : StoreRow)], r.id = "default") ∧
      (∀ r ∈ [(⟨"default", some "2"⟩ : StoreRow)],
        r.id = "default" → r.snapshot_id = some (sprintfD 2)) :=
  ⟨by decide,
    sync_success_appends_snapshot_and_repoints countingLib { now := 2 }
      ⟨"POST", some ⟨some [], [unary 5]⟩⟩ ⟨some [], [unary 5]⟩ [] (seededDB 3)
      ⟨[⟨"default", some "2"⟩], [⟨"1", "default", "AAAA"⟩, ⟨"2", "default", "AAAAAAA="⟩]⟩
      (unary 5) [unary 1, unary 2, unary 3] rfl rfl (by decide)⟩

/-! ### C5 and C6: failed rounds leave the tables alone -/

/-- A round with a cookie that cannot be opened is answered with status 500
and leaves the tables as they were. -/
theorem syncWithCookie_of_openRound_none {L : Lib Doc SS} {env : Env} {cookie : Bytes}
    {inputs : SyncInputs} {db : DB} (h : openRound L env db cookie = none) :
    syncWithCookie L env cookie inputs db = (Response.status 500, db) := by
  simp [syncWithCookie, h, StatusInternalServerError]

/-- A round with a cookie whose receive loop fails is answered with status
500 and leaves the tables as they were. -/
theorem syncWithCookie_of_receiveAll_none {L : Lib Doc SS} {env : Env} {cookie : Bytes}
    {inputs : SyncInputs} {db : DB} {doc : Doc} {ss : SS}
    (hopen : openRound L env db cookie = some (doc, ss))
    (h : receiveAll L doc (generateBatch L doc 100 ss []).2 inputs.messages = none) :
    syncWithCookie L env cookie inputs db = (Response.status 500, db) := by
  simp [syncWithCookie, hopen, h, StatusInternalServerError]

/-- A round with a cookie whose `persist` cannot commit is answered with
status 500 and leaves the tables as they were. -/
theorem syncWithCookie_of_persist_none {L : Lib Doc SS} {env : Env} {cookie : Bytes}
    {inputs : SyncInputs} {db : DB} (h : ∀ finalState, persist env db finalState = none) :
    syncWithCookie L env cookie inputs db = (Response.status 500, db) := by
  unfold syncWithCookie
  dsimp only
  repeat' split
  all_goals first
    | rfl
    | (rename_i hp; rw [h] at hp; exact absurd hp (by simp))

/-- `server.sync` on a decodable POST request with a cookie: status 500 when
the transaction does not open, else the branch with a cookie. -/
theorem sync_with_cookie_eq {L : Lib Doc SS} {env : Env} {req : Request SyncInputs}
    {inputs : SyncInputs} {cookie : Bytes} {db : DB}
    (hmethod : req.method = "POST") (hbody : req.body = some inputs)
    (hcookie : inputs.cookie = some cookie) :
    server.sync L env req db =
      if env.beginTxErr then (Response.status 500, db)
      else syncWithCookie L env cookie inputs db := by
  simp [server.sync, hmethod, hbody, hcookie, StatusInternalServerError]

/-- C5: in a round of `server.sync` with a cookie, when the stored snapshot
does not base64-decode, or does not load as a replica, or the cookie does not
load as a sync state, or the application of one inbound message, at any
position of the list, returns an error, the answer is the bare status 500
(no cookie, no messages) and the tables are as they were before the request. -/
theorem sync_round_failure_aborts (L : Lib Doc SS) (env : Env) (req : Request SyncInputs)
    (inputs : SyncInputs) (cookie : Bytes) (db : DB)
    (hmethod : req.method = "POST") (hbody : req.body = some inputs)
    (hcookie : inputs.cookie = some cookie)
    (hfail :
      (∃ rawContent, queryRow db defaultStore = some rawContent ∧
        L.decodeString rawContent = none) ∨
      (∃ rawContent decodedContent, queryRow db defaultStore = some rawContent ∧
        L.decodeString rawContent = some decodedContent ∧ L.load decodedContent = none) ∨
      (∃ rawContent decodedContent doc, queryRow db defaultStore = some rawContent ∧
        L.decodeString rawContent = some decodedContent ∧ L.load decodedContent = some doc ∧
        L.loadSyncState doc cookie = none) ∨
      (∃ rawContent decodedContent doc ss pre message post doc1 ss1,
        queryRow db defaultStore = some rawContent ∧
        L.decodeString rawContent = some decodedContent ∧ L.load decodedContent = some doc ∧
        L.loadSyncState doc cookie = some ss ∧
        inputs.messages = pre ++ message :: post ∧
        receiveAll L doc (generateBatch L doc 100 ss []).2 pre = some (doc1, ss1) ∧
        (L.receiveMessage doc1 ss1 message).err = true)) :
    server.sync L env req db = (Response.status 500, db) := by
  rw [sync_with_cookie_eq hmethod hbody hcookie]
  split
  · rfl
  · by_cases hq : env.queryErr = true
    · exact syncWithCookie_of_openRound_none (by simp [openRound, hq])
    · rcases hfail with ⟨raw, hrow, hdec⟩ | ⟨raw, dec, hrow, hdec, hload⟩ |
        ⟨raw, dec, doc, hrow, hdec, hload, hss⟩ |
        ⟨raw, dec, doc, ss, pre, message, post, doc1, ss1, hrow, hdec, hload, hss, hsplit,
          hpre, herr⟩
      · exact syncWithCookie_of_openRound_none (by simp [openRound, hq, hrow, hdec])
      · exact syncWithCookie_of_openRound_none (by simp [openRound, hq, hrow, hdec, hload])
      · exact syncWithCookie_of_openRound_none
          (by simp [openRound, hq, hrow, hdec, hload, hss])
      · have hopen : openRound L env db cookie = some (doc, ss) := by
          simp [openRound, hq, hrow, hdec, hload, hss]
        apply syncWithCookie_of_receiveAll_none hopen
        rw [hsplit, receiveAll_append, hpre]
        simp [herr]

/-- Witness of C5: the second of three messages is not a serialization; the
first one, which applies, is not committed. -/
theorem sync_round_failure_aborts_witness :
    (queryRow (seededDB 3) defaultStore = some "AAAA" ∧
      countingLib.decodeString "AAAA" = some (unary 3) ∧
      countingLib.load (unary 3) = some 3 ∧
      countingLib.loadSyncState 3 [] = some 0 ∧
      receiveAll countingLib 3 (generateBatch countingLib 3 100 0 []).2 [unary 4] = some (4, 4) ∧
      (countingLib.receiveMessage 4 4 [1]).err = true) ∧
    server.sync countingLib { now := 2 } ⟨"POST", some ⟨some [], [unary 4, [1], unary 9]⟩⟩
      (seededDB 3) = (Response.status 500, seededDB 3) :=
  ⟨by decide,
    sync_round_failure_aborts countingLib { now := 2 }
      ⟨"POST", some ⟨some [], [unary 4, [1], unary 9]⟩⟩ ⟨some [], [unary 4, [1], unary 9]⟩ []
      (seededDB 3) rfl rfl rfl
      (Or.inr (Or.inr (Or.inr ⟨"AAAA", unary 3, 3, 0, [unary 4], [1], [unary 9], 4, 4,
        by decide, by decide, by decide, by decide, rfl, by decide, by decide⟩)))⟩

/-- A failing step of `persist` makes it return without a committed state. -/
theorem persist_none_of_fails {env : Env} {db : DB}
    (h : env.insertErr = true ∨ (∃ r ∈ db.snapshots, r.id = sprintfD env.now) ∨
      env.insertRowsErr = true ∨ env.updateErr = true ∨ env.updateRowsErr = true ∨
      (∀ r ∈ db.stores, r.id ≠ defaultStore) ∨ env.commitErr = true)
    (finalState : String) : persist env db finalState = none := by
  cases hp : persist env db finalState with
  | none => rfl
  | some db' =>
    exfalso
    obtain ⟨-, -, hfresh, r0, hr0, hid0⟩ := persist_some hp
    unfold persist at hp
    simp only [insertSnapshot, updateStore] at hp
    have hins : ¬ ∃ x ∈ db.snapshots, x.id = sprintfD env.now :=
      fun ⟨r, hr, hid⟩ => hfresh r hr hid
    rcases h with h | ⟨r, hr, hid⟩ | h | h | h | h | h
    · simp [h] at hp
    · exact hfresh r hr hid
    · simp [h, hins] at hp
    · simp [h, hins] at hp
    · simp [h, hins] at hp
    · exact h r0 hr0 hid0
    · simp [h, hins] at hp

/-- C6: in a round of `server.sync` with a cookie, when the snapshot insert
fails (an error, a taken key, or its row count unavailable), or the pointer
update fails (an error, its row count unavailable, or no row to update), or
the commit fails, the answer is status 500 and the tables are as they were
before the request; hence the same request, repeated against the state the
failed attempt left, is answered exactly as it would have been against the
state before it. -/
theorem sync_persist_failure_rolls_back (L : Lib Doc SS) (env : Env)
    (req : Request SyncInputs) (inputs : SyncInputs) (cookie : Bytes) (db : DB)
    (hmethod : req.method = "POST") (hbody : req.body = some inputs)
    (hcookie : inputs.cookie = some cookie)
    (hfail : env.insertErr = true ∨ (∃ r ∈ db.snapshots, r.id = sprintfD env.now) ∨
      env.insertRowsErr = true ∨ env.updateErr = true ∨ env.updateRowsErr = true ∨
      (∀ r ∈ db.stores, r.id ≠ defaultStore) ∨ env.commitErr = true) :
    server.sync L env req db = (Response.status 500, db) ∧
    ∀ env', server.sync L env' req (server.sync L env req db).2 = server.sync L env' req db := by
  have h : server.sync L env req db = (Response.status 500, db) := by
    rw [sync_with_cookie_eq hmethod hbody hcookie]
    split
    · rfl
    · exact syncWithCookie_of_persist_none (persist_none_of_fails hfail)
  refine ⟨h, fun env' => ?_⟩
  rw [h]

/-- Witness of C6: the commit fails after a message was applied; the tables
are untouched and the retry, whose commit succeeds, goes through. -/
theorem sync_persist_failure_rolls_back_witness :
    (server.sync countingLib { now := 2, commitErr := true }
        ⟨"POST", some ⟨some [], [unary 5]⟩⟩ (seededDB 3) = (Response.status 500, seededDB 3) ∧
      ∀ env', server.sync countingLib env' ⟨"POST", some ⟨some [], [unary 5]⟩⟩
          (server.sync countingLib { now := 2, commitErr := true }
            ⟨"POST", some ⟨some [], [unary 5]⟩⟩ (seededDB 3)).2
        = server.sync countingLib env' ⟨"POST", some ⟨some [], [unary 5]⟩⟩ (seededDB 3)) ∧
    server.sync countingLib { now := 3 } ⟨"POST", some ⟨some [], [unary 5]⟩⟩
        (server.sync countingLib { now := 2, commitErr := true }
          ⟨"POST", some ⟨some [], [unary 5]⟩⟩ (seededDB 3)).2
      = (Response.json (unary 5) [unary 1, unary 2, unary 3],
          ⟨[⟨"default", some "3"⟩],
            [⟨"1", "default", "AAAA"⟩, ⟨"3", "default", "AAAAAAA="⟩]⟩) :=
  ⟨sync_persist_failure_rolls_back countingLib { now := 2, commitErr := true }
      ⟨"POST", some ⟨some [], [unary 5]⟩⟩ ⟨some [], [unary 5]⟩ [] (seededDB 3) rfl rfl rfl
      (Or.inr (Or.inr (Or.inr (Or.inr (Or.inr (Or.inr rfl)))))),
    by decide⟩

/-! ### C7: the outbound batches -/

/-- A batch appends to what was collected before it. -/
theorem generateBatch_acc (L : Lib Doc SS) (doc : Doc) (n : Nat) (ss : SS) (out : List Bytes) :
    generateBatch L doc n ss out
      = (out ++ (generateBatch L doc n ss []).1, (generateBatch L doc n ss []).2) := by
  induction n generalizing ss out with
  | zero => simp [generateBatch]
  | succ n ih =>
    simp only [generateBatch]
    split
    · simp
    · rename_i msg ss' _
      rw [ih ss' (out ++ [msg]), ih ss' ([] ++ [msg])]
      simp

/-- A batch is the messages of the successive calls up to the first that
reports none. -/
theorem generateBatch_messages (L : Lib Doc SS) (doc : Doc) (n : Nat) (ss : SS) :
    (generateBatch L doc n ss []).1 = validPrefix (successive L doc n ss) := by
  induction n generalizing ss with
  | zero => simp [generateBatch, successive, validPrefix]
  | succ n ih =>
    simp only [generateBatch, successive]
    split
    · rename_i ss' heq
      simp [heq, validPrefix]
    · rename_i msg ss' heq
      rw [generateBatch_acc, heq]
      simp [validPrefix, ih]

/-- A batch of at most `n` calls has at most `n` messages. -/
theorem validPrefix_successive_length (L : Lib Doc SS) (doc : Doc) (n : Nat) (ss : SS) :
    (validPrefix (successive L doc n ss)).length ≤ n := by
  induction n generalizing ss with
  | zero => simp [successive, validPrefix]
  | succ n ih =>
    simp only [successive]
    cases h : (L.generateMessage doc ss).1 with
    | none => simp [validPrefix]
    | some msg =>
      simp only [validPrefix, List.length_cons]
      exact Nat.succ_le_succ (ih _)

/-- A batch makes one call per message and one more, the one that reports
none, unless the cap ends it first. -/
theorem generateBatch_state (L : Lib Doc SS) (doc : Doc) (n : Nat) (ss : SS) :
    (generateBatch L doc n ss []).2
      = afterCalls L doc (min n ((validPrefix (successive L doc n ss)).length + 1)) ss := by
  induction n generalizing ss with
  | zero => simp [generateBatch, afterCalls]
  | succ n ih =>
    simp only [generateBatch, successive]
    split
    · rename_i ss' heq
      simp [heq, validPrefix, afterCalls]
    · rename_i msg ss' heq
      rw [generateBatch_acc, heq]
      simp only [validPrefix, List.length_cons, Nat.add_min_add_right, afterCalls, heq]
      exact ih ss'

/-- C7: in every round of `server.sync` with a cookie that is answered with a
JSON body, the message list is two batches; each batch is the messages of at
most 100 successive `GenerateMessage` calls up to the first call that reports
no valid message (after which no further call is made), so each has at most
100 messages and the answer at most 200, whatever the library generates. -/
theorem sync_outbound_batches_capped (L : Lib Doc SS) (env : Env)
    (req : Request SyncInputs) (inputs : SyncInputs) (cookie : Bytes) (db db' : DB)
    (c : Bytes) (msgs : List Bytes)
    (hbody : req.body = some inputs) (hcookie : inputs.cookie = some cookie)
    (hok : server.sync L env req db = (Response.json c msgs, db')) :
    ∃ doc ss doc2 ss2,
      openRound L env db cookie = some (doc, ss) ∧
      receiveAll L doc
          (afterCalls L doc (min 100 ((validPrefix (successive L doc 100 ss)).length + 1)) ss)
          inputs.messages = some (doc2, ss2) ∧
      msgs = validPrefix (successive L doc 100 ss) ++ validPrefix (successive L doc2 100 ss2) ∧
      c = L.saveSyncState
        (afterCalls L doc2 (min 100 ((validPrefix (successive L doc2 100 ss2)).length + 1)) ss2) ∧
      (validPrefix (successive L doc 100 ss)).length ≤ 100 ∧
      (validPrefix (successive L doc2 100 ss2)).length ≤ 100 ∧
      msgs.length ≤ 200 := by
  obtain ⟨doc, ss, doc2, ss2, hopen, hrecv, -, -, hc, hm⟩ :=
    syncWithCookie_json (sync_json_with_cookie hbody hcookie hok)
  rw [generateBatch_acc] at hc hm
  simp only [generateBatch_messages, generateBatch_state] at hrecv hc hm
  have h1 := validPrefix_successive_length L doc 100 ss
  have h2 := validPrefix_successive_length L doc2 100 ss2
  refine ⟨doc, ss, doc2, ss2, hopen, hrecv, hm, hc, h1, h2, ?_⟩
  rw [hm, List.length_append]
  omega

set_option maxRecDepth 100000 in
/-- Witness of C7: the replica holds 150 changes and the peer none; the first
batch is cut at 100 messages, the second brings the other 50. -/
theorem sync_outbound_batches_capped_witness :
    server.sync countingLib { now := 2 } ⟨"POST", some ⟨some [], []⟩⟩ (seededDB 150)
      = (Response.json (unary 150) ((List.range 150).map fun i => unary (i + 1)),
          ⟨[⟨"default", some "2"⟩],
            [⟨"1", "default", String.mk (b64Encode (unary 150))⟩,
              ⟨"2", "default", String.mk (b64Encode (unary 150))⟩]⟩) ∧
    ∃ doc ss doc2 ss2,
      openRound countingLib { now := 2 } (seededDB 150) [] = some (doc, ss) ∧
      receiveAll countingLib doc
          (afterCalls countingLib doc
            (min 100 ((validPrefix (successive countingLib doc 100 ss)).length + 1)) ss)
          [] = some (doc2, ss2) ∧
      ((List.range 150).map fun i => unary (i + 1))
        = validPrefix (successive countingLib doc 100 ss)
          ++ validPrefix (successive countingLib doc2 100 ss2) ∧
      unary 150 = countingLib.saveSyncState
        (afterCalls countingLib doc2
          (min 100 ((validPrefix (successive countingLib doc2 100 ss2)).length + 1)) ss2) ∧
      (validPrefix (successive countingLib doc 100 ss)).length ≤ 100 ∧
      (validPrefix (successive countingLib doc2 100 ss2)).length ≤ 100 ∧
      ((List.range 150).map fun i => unary (i + 1)).length ≤ 200 :=
  ⟨by decide,
    sync_outbound_batches_capped countingLib { now := 2 } ⟨"POST", some ⟨some [], []⟩⟩
      ⟨some [], []⟩ [] (seededDB 150)
      ⟨[⟨"default", some "2"⟩],
        [⟨"1", "default", String.mk (b64Encode (unary 150))⟩,
          ⟨"2", "default", String.mk (b64Encode (unary 150))⟩]⟩
      (unary 150) ((List.range 150).map fun i => unary (i + 1)) rfl rfl (by decide)⟩

/-! ### C8: unknown store -/

/-- The guard on messages without a cookie (lines 229-233) comes before the
lookup of the store: with no store at all, a request without a cookie that
brings a message is answered with status 400. -/
theorem sync_unknown_store_with_messages_is_400 :
    queryRow ⟨[], []⟩ defaultStore = none ∧
    server.sync countingLib { now := 2 } ⟨"POST", some ⟨none, [unary 1]⟩⟩ ⟨[], []⟩
      = (Response.status 400, ⟨[], []⟩) ∧
    Response.status 400 ≠ Response.status 404 := by
  decide

/-- The lookup of the branch without a cookie (lines 235-247): in
`server.sync`, a request with a nil cookie and no messages, made when the
store has no current snapshot row, is answered with status 404 and leaves the
tables as they were. -/
theorem sync_bootstrap_unknown_store_not_found (L : Lib Doc SS) (env : Env)
    (req : Request SyncInputs) (inputs : SyncInputs) (db : DB)
    (hmethod : req.method = "POST") (hbody : req.body = some inputs)
    (hbegin : env.beginTxErr = false) (hquery : env.queryErr = false)
    (hcookie : inputs.cookie = none) (hmessages : inputs.messages = [])
    (hrow : queryRow db defaultStore = none) :
    server.sync L env req db = (Response.status 404, db) := by
  simp [server.sync, hmethod, hbody, hbegin, hcookie, syncNoCookie, hmessages, hquery, hrow,
    StatusNotFound]

/-- The bootstrap fetch against empty tables is answered with status 404. -/
theorem sync_bootstrap_unknown_store_not_found_witness :
    queryRow ⟨[], []⟩ defaultStore = none ∧
    server.sync countingLib { now := 2 } ⟨"POST", some ⟨none, []⟩⟩ ⟨[], []⟩
      = (Response.status 404, ⟨[], []⟩) :=
  ⟨by decide,
    sync_bootstrap_unknown_store_not_found countingLib { now := 2 } ⟨"POST", some ⟨none, []⟩⟩
      ⟨none, []⟩ ⟨[], []⟩ rfl rfl rfl rfl rfl rfl (by decide)⟩

/-- The lookup of the branch with a cookie (lines 265-275) does not tell
`sql.ErrNoRows` from a failed query: whatever the libraries, the cookie and
the messages, a request with a cookie made when the store has no current
snapshot row is answered with status 500 and leaves the tables as they
were. -/
theorem sync_with_cookie_unknown_store_internal_error (L : Lib Doc SS) (env : Env)
    (req : Request SyncInputs) (inputs : SyncInputs) (cookie : Bytes) (db : DB)
    (hmethod : req.method = "POST") (hbody : req.body = some inputs)
    (hcookie : inputs.cookie = some cookie)
    (hrow : queryRow db defaultStore = none) :
    server.sync L env req db = (Response.status 500, db) := by
  rw [sync_with_cookie_eq hmethod hbody hcookie]
  split
  · rfl
  · apply syncWithCookie_of_openRound_none
    unfold openRound
    split
    · rfl
    · simp [hrow]

/-- C8: the failing input.  The tables are as `server.init` leaves them, with
no row for the store.  A request with a cookie and no messages is answered
with status 500, not 404, and so is one that brings a message; the request
without a cookie, on the same tables, is answered with status 404. -/
theorem sync_with_cookie_unknown_store_is_500 :
    server.init false false freshFile = some ⟨[], []⟩ ∧
    queryRow ⟨[], []⟩ defaultStore = none ∧
    server.sync countingLib { now := 2 } ⟨"POST", some ⟨some [67, 0], []⟩⟩ ⟨[], []⟩
      = (Response.status 500, ⟨[], []⟩) ∧
    server.sync countingLib { now := 2 } ⟨"POST", some ⟨some [67, 0], [unary 1]⟩⟩ ⟨[], []⟩
      = (Response.status 500, ⟨[], []⟩) ∧
    server.sync countingLib { now := 2 } ⟨"POST", some ⟨none, []⟩⟩ ⟨[], []⟩
      = (Response.status 404, ⟨[], []⟩) ∧
    Response.status 500 ≠ Response.status 404 := by
  decide

/-! ### C10: the streaming receive step -/

/-- C10: in `readAndReceiveMessage`, after a successful read, a binary frame
has its payload handed to `ReceiveMessage` exactly once, the step ending in
the state and with the error of that one call; a frame of any other type
leaves replica and sync state as they were, makes no call and returns no
error. -/
theorem readAndReceiveMessage_frame (L : Lib Doc SS) (frame : Frame) (doc : Doc) (ss : SS)
    (calls : Nat) :
    (frame.messageType = BinaryMessage →
      readAndReceiveMessage L (some frame) doc ss = L.receiveMessage doc ss frame.payload ∧
      (readAndReceiveMessage (tallied L) (some frame) (doc, calls) ss).doc.2 = calls + 1) ∧
    (frame.messageType ≠ BinaryMessage →
      readAndReceiveMessage L (some frame) doc ss = ⟨doc, ss, false⟩ ∧
      (readAndReceiveMessage (tallied L) (some frame) (doc, calls) ss).doc.2 = calls) := by
  constructor
  · intro h
    constructor
    · simp only [readAndReceiveMessage, h, if_true]
      cases hr : L.receiveMessage doc ss frame.payload with
      | mk d s e => cases e <;> simp
    · simp only [readAndReceiveMessage, h, if_true, tallied]
      split <;> rfl
  · intro h
    simp [readAndReceiveMessage, h]

/-- Witness of C10: a binary frame carrying two changes is applied, a text
frame with the same payload is not. -/
theorem readAndReceiveMessage_frame_witness :
    (BinaryMessage = BinaryMessage ∧
      readAndReceiveMessage countingLib (some ⟨BinaryMessage, unary 2⟩) 1 0 = ⟨2, 2, false⟩ ∧
      (readAndReceiveMessage (tallied countingLib) (some ⟨BinaryMessage, unary 2⟩) (1, 0) 0).doc.2
        = 0 + 1) ∧
    (TextMessage ≠ BinaryMessage ∧
      readAndReceiveMessage countingLib (some ⟨TextMessage, unary 2⟩) 1 0 = ⟨1, 0, false⟩ ∧
      (readAndReceiveMessage (tallied countingLib) (some ⟨TextMessage, unary 2⟩) (1, 0) 0).doc.2
        = 0) :=
  ⟨⟨rfl, (readAndReceiveMessage_frame countingLib ⟨BinaryMessage, unary 2⟩ 1 0 0).1 rfl⟩,
    ⟨by decide,
      (readAndReceiveMessage_frame countingLib ⟨TextMessage, unary 2⟩ 1 0 0).2 (by decide)⟩⟩

/-! ### C4: pointer/snapshot consistency -/

/-- An accepted snapshot insert appended the row, under a key no row had. -/
theorem insertSnapshot_some {db tx : DB} {row : SnapshotRow} {n : Nat}
    (h : insertSnapshot db row = some (tx, n)) :
    tx = { db with snapshots := db.snapshots ++ [row] } ∧
    ∀ r ∈ db.snapshots, r.id ≠ row.id := by
  unfold insertSnapshot at h
  split at h
  · simp at h
  · rename_i hfresh
    simp only [Option.some.injEq, Prod.mk.injEq] at h
    simp only [Bool.not_eq_true, List.any_eq_false, beq_iff_eq] at hfresh
    exact ⟨h.1.symm, hfresh⟩

/-- An accepted store insert appended the row, under a key no row had. -/
theorem insertStore_some {db tx : DB} {row : StoreRow} {n : Nat}
    (h : insertStore db row = some (tx, n)) :
    tx = { db with stores := db.stores ++ [row] } ∧
    ∀ r ∈ db.stores, r.id ≠ row.id := by
  unfold insertStore at h
  split at h
  · simp at h
  · rename_i hfresh
    simp only [Option.some.injEq, Prod.mk.injEq] at h
    simp only [Bool.not_eq_true, List.any_eq_false, beq_iff_eq] at hfresh
    exact ⟨h.1.symm, hfresh⟩

/-- Whatever `server.createNew` answers, the tables are as before, or one
snapshot row and one store row pointing at it were added. -/
theorem createNew_db (L : Lib Doc SS) (env : Env) (req : Request NewInputs) (db : DB) :
    (server.createNew L env req db).2 = db ∨
    ∃ content, (server.createNew L env req db).2 =
      ⟨db.stores ++ [⟨defaultStore, some (sprintfD env.now)⟩],
        db.snapshots ++ [⟨sprintfD env.now, defaultStore, content⟩]⟩ := by
  unfold server.createNew
  dsimp only
  repeat' split
  all_goals first
    | exact Or.inl rfl
    | (rename_i h1 _ _ _ _ h2 _
       obtain ⟨e1, -⟩ := insertSnapshot_some h1
       obtain ⟨e2, -⟩ := insertStore_some h2
       subst e1
       subst e2
       exact Or.inr ⟨_, rfl⟩)

/-- Whatever `server.sync` answers, the tables are as before or as one
committed `persist` left them. -/
theorem sync_db (L : Lib Doc SS) (env : Env) (req : Request SyncInputs) (db : DB) :
    (server.sync L env req db).2 = db ∨
    ∃ finalState, persist env db finalState = some (server.sync L env req db).2 := by
  unfold server.sync
  split
  · exact Or.inl rfl
  · split
    · exact Or.inl rfl
    · split
      · exact Or.inl rfl
      · split
        · left
          unfold syncNoCookie
          repeat' split
          all_goals rfl
        · exact syncWithCookie_db L env _ _ db

/-- A committed `persist` keeps the tables consistent. -/
theorem PointerConsistent_persist {env : Env} {db db' : DB} {finalState : String}
    (hdb : PointerConsistent db) (h : persist env db finalState = some db') :
    PointerConsistent db' := by
  obtain ⟨hsnap, hstores, -, -⟩ := persist_some h
  intro st hst
  rw [hstores] at hst
  obtain ⟨r, hr, hst⟩ := List.mem_map.mp hst
  by_cases hid : r.id = defaultStore
  · rw [if_pos hid] at hst
    refine ⟨⟨sprintfD env.now, defaultStore, finalState⟩, ?_, ?_, ?_⟩
    · rw [hsnap]
      simp
    · rw [← hst]
    · rw [← hst]
      exact hid.symm
  · rw [if_neg hid] at hst
    subst hst
    obtain ⟨sn, hsn, h1, h2⟩ := hdb r hr
    exact ⟨sn, by rw [hsnap]; exact List.mem_append_left _ hsn, h1, h2⟩

/-- Serving one call keeps the tables consistent. -/
theorem PointerConsistent_serve (L : Lib Doc SS) {db : DB} (hdb : PointerConsistent db)
    (call : Call) : PointerConsistent (serve L db call) := by
  cases call with
  | createNew env req =>
    rcases createNew_db L env req db with h | ⟨content, h⟩
    · simp only [serve]
      rw [h]
      exact hdb
    · simp only [serve]
      rw [h]
      intro st hst
      rcases List.mem_append.mp hst with hst | hst
      · obtain ⟨sn, hsn, h1, h2⟩ := hdb st hst
        exact ⟨sn, List.mem_append_left _ hsn, h1, h2⟩
      · simp only [List.mem_singleton] at hst
        subst hst
        exact ⟨⟨sprintfD env.now, defaultStore, content⟩, by simp, rfl, rfl⟩
  | sync env req =>
    rcases sync_db L env req db with h | ⟨finalState, h⟩
    · simp only [serve]
      rw [h]
      exact hdb
    · exact PointerConsistent_persist hdb h

/-- Serving any sequence of calls keeps the tables consistent. -/
theorem PointerConsistent_serveAll (L : Lib Doc SS) (calls : List Call) {db : DB}
    (hdb : PointerConsistent db) : PointerConsistent (serveAll L db calls) := by
  induction calls generalizing db with
  | nil => exact hdb
  | cons call rest ih => exact ih (PointerConsistent_serve L hdb call)

/-- C4: `server.init` on a database without tables creates both tables empty,
and after any sequence of `createNew` and `sync` requests served from there,
whatever each request is and wherever it fails, every row of `stores` names in
`snapshot_id` an existing row of `snapshots` that belongs to the same store. -/
theorem pointer_snapshot_consistency_invariant (L : Lib Doc SS) (calls : List Call) :
    server.init false false freshFile = some ⟨[], []⟩ ∧
    PointerConsistent (serveAll L ⟨[], []⟩ calls) := by
  refine ⟨rfl, PointerConsistent_serveAll L calls ?_⟩
  intro st hst
  simp at hst

/-! ### The reference instance resumes -/

/-- Every 6-bit value is the value of its character, which is not the padding. -/
theorem b64Val_b64Char_fin :
    ∀ n : Fin 64, b64Val (b64Char n.val) = some n.val ∧ b64Char n.val ≠ '=' := by
  decide

/-- The value of the character of a 6-bit value. -/
theorem b64Val_b64Char {n : Nat} (h : n < 64) : b64Val (b64Char n) = some n :=
  (b64Val_b64Char_fin ⟨n, h⟩).1

/-- The character of a 6-bit value is not the padding. -/
theorem b64Char_ne_pad {n : Nat} (h : n < 64) : b64Char n ≠ '=' :=
  (b64Val_b64Char_fin ⟨n, h⟩).2

/-- A full group decodes to the three bytes it encodes. -/
theorem b64Group_full (a b c : Fin 256) :
    b64Group (b64Char (a.val / 4)) (b64Char (a.val % 4 * 16 + b.val / 16))
      (b64Char (b.val % 16 * 4 + c.val / 64)) (b64Char (c.val % 64)) = some [a, b, c] := by
  have ha := a.isLt
  have hb := b.isLt
  have hc := c.isLt
  have h0 : a.val / 4 < 64 := by omega
  have h1 : a.val % 4 * 16 + b.val / 16 < 64 := by omega
  have h2 : b.val % 16 * 4 + c.val / 64 < 64 := by omega
  have h3 : c.val % 64 < 64 := by omega
  simp only [b64Group, b64Val_b64Char h0, b64Val_b64Char h1, b64Val_b64Char h2,
    b64Val_b64Char h3, if_neg (b64Char_ne_pad h3)]
  simp only [Option.some.injEq, List.cons.injEq, and_true, byteOf]
  refine ⟨?_, ?_, ?_⟩ <;> apply Fin.ext <;> simp only <;> omega

/-- Decoding inverts encoding. -/
theorem b64Decode_b64Encode : ∀ b : Bytes, b64Decode (b64Encode b) = some b
  | [] => rfl
  | [a] => by
    have ha := a.isLt
    have h0 : a.val / 4 < 64 := by omega
    have h1 : a.val % 4 * 16 < 64 := by omega
    simp only [b64Encode, b64Decode, b64Group, b64Val_b64Char h0, b64Val_b64Char h1]
    simp only [if_true, Option.some.injEq, List.cons.injEq, and_true, byteOf]
    apply Fin.ext
    simp only
    omega
  | [a, b] => by
    have ha := a.isLt
    have hb := b.isLt
    have h0 : a.val / 4 < 64 := by omega
    have h1 : a.val % 4 * 16 + b.val / 16 < 64 := by omega
    have h2 : b.val % 16 * 4 < 64 := by omega
    simp only [b64Encode, b64Decode, b64Group, b64Val_b64Char h0, b64Val_b64Char h1,
      b64Val_b64Char h2, if_neg (b64Char_ne_pad h2)]
    simp only [if_true, Option.some.injEq, List.cons.injEq, and_true, byteOf]
    refine ⟨?_, ?_⟩ <;> apply Fin.ext <;> simp only <;> omega
  | a :: b :: c :: rest => by
    have ih := b64Decode_b64Encode rest
    have hb := b.isLt
    have hc := c.isLt
    have h2 : b.val % 16 * 4 + c.val / 64 < 64 := by omega
    have h3 : c.val % 64 < 64 := by omega
    cases hrest : b64Encode rest with
    | nil =>
      have : rest = [] := by
        rw [hrest] at ih
        simpa [b64Decode] using ih.symm
      subst this
      simp only [b64Encode, b64Decode]
      exact b64Group_full a b c
    | cons x xs =>
      rw [hrest] at ih
      simp only [b64Encode, hrest, b64Decode, b64Group_full, ih]
      simp [b64Char_ne_pad h2, b64Char_ne_pad h3]

/-- A count comes back from its serialization. -/
theorem ofUnary_unary (n : Nat) : ofUnary (unary n) = some n := by
  simp [ofUnary, unary]

/-- The counting engine with the base64 codec resumes. -/
theorem countingLib_resumes : Resumes countingLib where
  decode_encode := fun b => by
    show b64Decode (String.mk (b64Encode b)).data = some b
    exact b64Decode_b64Encode b
  load_save := fun doc => ofUnary_unary doc
  loadSyncState_save := fun _ ss => ofUnary_unary ss
  quiet := fun doc ss h => by
    simp only [countingLib] at h ⊢
    split at h
    · simp at h
    · rename_i hlt
      simp [hlt]

/-! ### C9: round stability -/

/-- After a committed `persist`, the current snapshot row of the store is the
one just written. -/
theorem queryRow_persist {env : Env} {db db' : DB} {finalState : String}
    (h : persist env db finalState = some db') : queryRow db' defaultStore = some finalState := by
  obtain ⟨hsnap, hstores, hfresh, r0, hr0, hid0⟩ := persist_some h
  have hold : (db.snapshots.flatMap fun sn =>
      (db'.stores.filter fun st =>
        st.id == defaultStore && st.snapshot_id == some sn.id).map fun _ => sn.content) = [] := by
    rw [List.flatMap_eq_nil_iff]
    intro sn hsn
    rw [List.map_eq_nil_iff, List.filter_eq_nil_iff]
    intro st hst
    rw [hstores] at hst
    obtain ⟨r, -, hr⟩ := List.mem_map.mp hst
    by_cases hid : r.id = defaultStore
    · rw [if_pos hid] at hr
      subst hr
      have := hfresh sn hsn
      simp [Ne.symm this]
    · rw [if_neg hid] at hr
      subst hr
      simp [hid]
  have hmem : (⟨r0.id, some (sprintfD env.now)⟩ : StoreRow) ∈ db'.stores := by
    rw [hstores]
    refine List.mem_map.mpr ⟨r0, hr0, ?_⟩
    rw [if_pos hid0]
  unfold queryRow selectContent
  rw [hsnap, List.flatMap_append, hold]
  simp only [List.nil_append, List.flatMap_cons, List.flatMap_nil, List.append_nil]
  cases hf : db'.stores.filter (fun st =>
      st.id == defaultStore && st.snapshot_id == some (sprintfD env.now)) with
  | nil =>
    exfalso
    rw [List.filter_eq_nil_iff] at hf
    have := hf _ hmem
    simp [hid0] at this
  | cons x xs => simp

/-- With no failure injected, a key no snapshot has and a row for the store,
`persist` commits. -/
theorem persist_of_faultFree {env : Env} {db : DB} (finalState : String)
    (henv : FaultFree env) (hfresh : ∀ r ∈ db.snapshots, r.id ≠ sprintfD env.now)
    (hrow : ∃ r ∈ db.stores, r.id = defaultStore) :
    ∃ db', persist env db finalState = some db' := by
  obtain ⟨-, -, h1, h2, -, h3, h4, h5, -⟩ := henv
  obtain ⟨r, hr, hid⟩ := hrow
  have hany : db.snapshots.any (fun r => r.id == sprintfD env.now) = false := by
    rw [List.any_eq_false]
    intro x hx
    simpa using hfresh x hx
  have hcount : db.stores.countP (fun r => r.id == defaultStore) ≠ 0 := by
    apply Nat.pos_iff_ne_zero.mp
    exact List.countP_pos_iff.mpr ⟨r, hr, by simpa using hid⟩
  simp [persist, insertSnapshot, updateStore, h1, h2, h3, h4, h5, hany, hcount]

/-- A batch from a sync state that reports no valid message is empty and ends
in the state that one call leaves. -/
theorem generateBatch_of_quiet (L : Lib Doc SS) (doc : Doc) (n : Nat) (ss : SS)
    (out : List Bytes) (h : (L.generateMessage doc ss).1 = none) :
    generateBatch L doc (n + 1) ss out = (out, (L.generateMessage doc ss).2) := by
  simp only [generateBatch]
  split
  · rename_i heq
    rw [heq]
  · rename_i heq
    rw [heq] at h
    simp at h

/-- A committed `persist` leaves a row for the store. -/
theorem persist_store_row {env : Env} {db db' : DB} {finalState : String}
    (h : persist env db finalState = some db') : ∃ r ∈ db'.stores, r.id = defaultStore := by
  obtain ⟨-, hstores, -, r0, hr0, hid0⟩ := persist_some h
  rw [hstores]
  refine ⟨_, List.mem_map.mpr ⟨r0, hr0, rfl⟩, ?_⟩
  rw [if_pos hid0]
  exact hid0

/-- A batch that the cap did not cut ends in a sync state that reports no
valid message. -/
theorem generateBatch_quiet (L : Lib Doc SS) (hL : Resumes L) (doc : Doc) (n : Nat) (ss : SS)
    (h : (generateBatch L doc n ss []).1.length < n) :
    (L.generateMessage doc (generateBatch L doc n ss []).2).1 = none := by
  induction n generalizing ss with
  | zero => simp at h
  | succ n ih =>
    simp only [generateBatch] at h ⊢
    split
    · rename_i ss' heq
      have := hL.quiet doc ss (by rw [heq])
      rw [heq] at this
      exact this
    · rename_i msg ss' heq
      rw [heq] at h
      simp only at h
      rw [generateBatch_acc] at h ⊢
      simp only [List.nil_append, List.length_append, List.length_singleton] at h
      exact ih ss' (by omega)

/-- After a committed round, the next round with the saved sync state as its
cookie opens on the replica and the sync state the first one ended with. -/
theorem openRound_after_persist {L : Lib Doc SS} (hL : Resumes L) {env1 env2 : Env}
    {db db1 : DB} {doc : Doc} (ss : SS)
    (hpersist : persist env1 db (L.encodeToString (L.save doc)) = some db1)
    (hquery : env2.queryErr = false) :
    openRound L env2 db1 (L.saveSyncState ss) = some (doc, ss) := by
  simp [openRound, hquery, queryRow_persist hpersist, hL.decode_encode, hL.load_save,
    hL.loadSyncState_save]

/-- On libraries that resume (`Resumes`), which asks of the cookie that it
restore the sync state it saved: if a round of `server.sync` with a cookie and
no inbound messages is answered with a JSON body of fewer than 200 messages
(the cap did not cut the second batch), then in the round invoked next with
the returned cookie and no inbound messages every JSON answer carries an empty
message list, and there is such an answer when no failure is injected and the
clock gives a key no snapshot has. -/
theorem sync_round_stable_below_cap (L : Lib Doc SS) (hL : Resumes L) (env1 env2 : Env)
    (req1 : Request SyncInputs) (inputs1 : SyncInputs) (cookie : Bytes) (db db1 : DB)
    (c1 : Bytes) (msgs1 : List Bytes)
    (hbody : req1.body = some inputs1) (hcookie : inputs1.cookie = some cookie)
    (hmessages : inputs1.messages = [])
    (hok : server.sync L env1 req1 db = (Response.json c1 msgs1, db1))
    (hcap : msgs1.length < 200) :
    (∀ c2 msgs2 db2,
      server.sync L env2 ⟨"POST", some ⟨some c1, []⟩⟩ db1 = (Response.json c2 msgs2, db2) →
      msgs2 = []) ∧
    (FaultFree env2 → (∀ r ∈ db1.snapshots, r.id ≠ sprintfD env2.now) →
      ∃ c2 db2,
        server.sync L env2 ⟨"POST", some ⟨some c1, []⟩⟩ db1 = (Response.json c2 [], db2)) := by
  obtain ⟨doc, ss, doc2, ss2, -, hrecv, hpersist, -, hc, hm⟩ :=
    syncWithCookie_json (sync_json_with_cookie hbody hcookie hok)
  rw [hmessages] at hrecv
  simp only [receiveAll, Option.some.injEq, Prod.mk.injEq] at hrecv
  obtain ⟨hd, hs⟩ := hrecv
  subst hd
  subst hs
  rw [generateBatch_acc] at hc hm
  simp only at hc hm
  -- the sync state the first round saved reports no valid message
  have hq3 : (L.generateMessage doc
      (generateBatch L doc 100 (generateBatch L doc 100 ss []).2 []).2).1 = none := by
    by_cases h2 : (generateBatch L doc 100 (generateBatch L doc 100 ss []).2 []).1.length < 100
    · exact generateBatch_quiet L hL doc 100 _ h2
    · exfalso
      have h1 : (generateBatch L doc 100 ss []).1.length < 100 := by
        rw [hm, List.length_append] at hcap
        omega
      have hq1 := generateBatch_quiet L hL doc 100 ss h1
      rw [generateBatch_of_quiet L doc 99 _ [] hq1] at h2
      simp at h2
  have hq4 := hL.quiet doc _ hq3
  have hbody2 : (⟨"POST", some ⟨some c1, []⟩⟩ : Request SyncInputs).body
      = some (⟨some c1, []⟩ : SyncInputs) := rfl
  have hb1 := generateBatch_of_quiet L doc 99 _ [] hq3
  have hb2 := generateBatch_of_quiet L doc 99 _ [] hq4
  constructor
  · intro c2 msgs2 db2 h2
    obtain ⟨doc', ss', doc2', ss2', hopen', hrecv', -, -, -, hm'⟩ :=
      syncWithCookie_json (sync_json_with_cookie hbody2 rfl h2)
    have hquery := (openRound_some hopen').1
    rw [hc, openRound_after_persist hL _ hpersist hquery] at hopen'
    simp only [Option.some.injEq, Prod.mk.injEq] at hopen'
    obtain ⟨hd, hs⟩ := hopen'
    subst hd
    subst hs
    simp only [receiveAll, Option.some.injEq, Prod.mk.injEq] at hrecv'
    obtain ⟨hd, hs⟩ := hrecv'
    subst hd
    subst hs
    rw [hm', hb1]
    simp only
    rw [hb2]
  · intro henv hfresh
    obtain ⟨db2, hp2⟩ := persist_of_faultFree (L.encodeToString (L.save doc)) henv hfresh
      (persist_store_row hpersist)
    have hbegin := henv.1
    have hquery := henv.2.1
    have hencode := henv.2.2.2.2.2.2.2.2
    refine ⟨L.saveSyncState (L.generateMessage doc (L.generateMessage doc
      (generateBatch L doc 100 (generateBatch L doc 100 ss []).2 []).2).2).2, db2, ?_⟩
    rw [sync_with_cookie_eq rfl hbody2 rfl, if_neg (by simp [hbegin])]
    unfold syncWithCookie
    rw [hc, openRound_after_persist hL _ hpersist hquery]
    simp only [hb1, receiveAll, hb2, hp2, respond, hencode]
    rfl

set_option maxRecDepth 100000 in
/-- An instance on the counting engine: the replica holds 150 changes and the
peer none; the first round sends all 150, the next round sends nothing. -/
theorem sync_round_stable_below_cap_witness :
    (server.sync countingLib { now := 2 } ⟨"POST", some ⟨some [], []⟩⟩ (seededDB 150)
        = (Response.json (unary 150) ((List.range 150).map fun i => unary (i + 1)),
            ⟨[⟨"default", some "2"⟩],
              [⟨"1", "default", String.mk (b64Encode (unary 150))⟩,
                ⟨"2", "default", String.mk (b64Encode (unary 150))⟩]⟩) ∧
      ((List.range 150).map fun i => unary (i + 1)).length < 200 ∧
      server.sync countingLib { now := 3 } ⟨"POST", some ⟨some (unary 150), []⟩⟩
          ⟨[⟨"default", some "2"⟩],
            [⟨"1", "default", String.mk (b64Encode (unary 150))⟩,
              ⟨"2", "default", String.mk (b64Encode (unary 150))⟩]⟩
        = (Response.json (unary 150) [],
            ⟨[⟨"default", some "3"⟩],
              [⟨"1", "default", String.mk (b64Encode (unary 150))⟩,
                ⟨"2", "default", String.mk (b64Encode (unary 150))⟩,
                ⟨"3", "default", String.mk (b64Encode (unary 150))⟩]⟩)) ∧
    (∀ c2 msgs2 db2,
      server.sync countingLib { now := 3 } ⟨"POST", some ⟨some (unary 150), []⟩⟩
          ⟨[⟨"default", some "2"⟩],
            [⟨"1", "default", String.mk (b64Encode (unary 150))⟩,
              ⟨"2", "default", String.mk (b64Encode (unary 150))⟩]⟩
        = (Response.json c2 msgs2, db2) →
      msgs2 = []) ∧
    (FaultFree { now := 3 } →
      (∀ r ∈ [(⟨"1", "default", String.mk (b64Encode (unary 150))⟩ : SnapshotRow),
          ⟨"2", "default", String.mk (b64Encode (unary 150))⟩], r.id ≠ sprintfD 3) →
      ∃ c2 db2,
        server.sync countingLib { now := 3 } ⟨"POST", some ⟨some (unary 150), []⟩⟩
            ⟨[⟨"default", some "2"⟩],
              [⟨"1", "default", String.mk (b64Encode (unary 150))⟩,
                ⟨"2", "default", String.mk (b64Encode (unary 150))⟩]⟩
          = (Response.json c2 [], db2)) :=
  ⟨by decide,
    sync_round_stable_below_cap countingLib countingLib_resumes { now := 2 } { now := 3 }
      ⟨"POST", some ⟨some [], []⟩⟩ ⟨some [], []⟩ [] (seededDB 150)
      ⟨[⟨"default", some "2"⟩],
        [⟨"1", "default", String.mk (b64Encode (unary 150))⟩,
          ⟨"2", "default", String.mk (b64Encode (unary 150))⟩]⟩
      (unary 150) ((List.range 150).map fun i => unary (i + 1)) rfl rfl rfl (by decide)
      (by decide)⟩

set_option maxRecDepth 100000 in
/-- On the counting engine the cap can cut a round: the replica holds 201
changes and the peer none.  The first round, with no inbound messages, is cut
at 100 + 100 messages; the round invoked next with the returned cookie and no
inbound messages sends the one that was left. -/
theorem sync_round_not_stable_at_cap :
    server.sync countingLib { now := 2 } ⟨"POST", some ⟨some [], []⟩⟩ (seededDB 201)
      = (Response.json (unary 200) ((List.range 200).map fun i => unary (i + 1)),
          ⟨[⟨"default", some "2"⟩],
            [⟨"1", "default", String.mk (b64Encode (unary 201))⟩,
              ⟨"2", "default", String.mk (b64Encode (unary 201))⟩]⟩) ∧
    server.sync countingLib { now := 3 } ⟨"POST", some ⟨some (unary 200), []⟩⟩
        ⟨[⟨"default", some "2"⟩],
          [⟨"1", "default", String.mk (b64Encode (unary 201))⟩,
            ⟨"2", "default", String.mk (b64Encode (unary 201))⟩]⟩
      = (Response.json (unary 201) [unary 201],
          ⟨[⟨"default", some "3"⟩],
            [⟨"1", "default", String.mk (b64Encode (unary 201))⟩,
              ⟨"2", "default", String.mk (b64Encode (unary 201))⟩,
              ⟨"3", "default", String.mk (b64Encode (unary 201))⟩]⟩) ∧
    [unary 201] ≠ [] := by
  decide

/-- On the counting engine with a cookie that keeps no record at all, two
rounds in succession, far below the cap, both send the three changes of the
replica. -/
theorem sync_round_not_stable_when_cookie_forgets :
    server.sync forgetfulLib { now := 2 } ⟨"POST", some ⟨some [], []⟩⟩ (seededDB 3)
      = (Response.json [] [unary 1, unary 2, unary 3],
          ⟨[⟨"default", some "2"⟩], [⟨"1", "default", "AAAA"⟩, ⟨"2", "default", "AAAA"⟩]⟩) ∧
    server.sync forgetfulLib { now := 3 } ⟨"POST", some ⟨some [], []⟩⟩
        ⟨[⟨"default", some "2"⟩], [⟨"1", "default", "AAAA"⟩, ⟨"2", "default", "AAAA"⟩]⟩
      = (Response.json [] [unary 1, unary 2, unary 3],
          ⟨[⟨"default", some "3"⟩],
            [⟨"1", "default", "AAAA"⟩, ⟨"2", "default", "AAAA"⟩,
              ⟨"3", "default", "AAAA"⟩]⟩) := by
  decide

/-! ### C15: what a successful round answers -/

/-- C15: a round of `server.sync` with a cookie that is answered with a JSON
body answers the first batch, generated on the sync state of the cookie before
any inbound message is applied, followed by the second batch, generated after
all inbound messages are applied, each batch in the order of its
`GenerateMessage` calls; the cookie is the serialization of the sync state as
the second batch left it. -/
theorem sync_answer_is_two_batches_and_final_cookie (L : Lib Doc SS) (env : Env)
    (req : Request SyncInputs) (inputs : SyncInputs) (cookie : Bytes) (db db' : DB)
    (c : Bytes) (msgs : List Bytes)
    (hbody : req.body = some inputs) (hcookie : inputs.cookie = some cookie)
    (hok : server.sync L env req db = (Response.json c msgs, db')) :
    ∃ doc ss doc2 ss2,
      openRound L env db cookie = some (doc, ss) ∧
      receiveAll L doc (generateBatch L doc 100 ss []).2 inputs.messages = some (doc2, ss2) ∧
      msgs = (generateBatch L doc 100 ss []).1 ++ (generateBatch L doc2 100 ss2 []).1 ∧
      (generateBatch L doc 100 ss []).1 = validPrefix (successive L doc 100 ss) ∧
      (generateBatch L doc2 100 ss2 []).1 = validPrefix (successive L doc2 100 ss2) ∧
      c = L.saveSyncState (generateBatch L doc2 100 ss2 []).2 := by
  obtain ⟨doc, ss, doc2, ss2, hopen, hrecv, -, -, hc, hm⟩ :=
    syncWithCookie_json (sync_json_with_cookie hbody hcookie hok)
  rw [generateBatch_acc] at hc hm
  exact ⟨doc, ss, doc2, ss2, hopen, hrecv, hm, generateBatch_messages L doc 100 ss,
    generateBatch_messages L doc2 100 ss2, hc⟩

/-- Witness of C15: the replica holds three changes, the peer none, and the
request brings a fifth change; the first batch is the three changes, the
second is empty, and the cookie says the peer holds five. -/
theorem sync_answer_is_two_batches_and_final_cookie_witness :
    server.sync countingLib { now := 2 } ⟨"POST", some ⟨some [], [unary 5]⟩⟩ (seededDB 3)
      = (Response.json (unary 5) [unary 1, unary 2, unary 3],
          ⟨[⟨"default", some "2"⟩],
            [⟨"1", "default", "AAAA"⟩, ⟨"2", "default", "AAAAAAA="⟩]⟩) ∧
    ∃ doc ss doc2 ss2,
      openRound countingLib { now := 2 } (seededDB 3) [] = some (doc, ss) ∧
      receiveAll countingLib doc (generateBatch countingLib doc 100 ss []).2 [unary 5]
        = some (doc2, ss2) ∧
      [unary 1, unary 2, unary 3]
        = (generateBatch countingLib doc 100 ss []).1
          ++ (generateBatch countingLib doc2 100 ss2 []).1 ∧
      (generateBatch countingLib doc 100 ss []).1
        = validPrefix (successive countingLib doc 100 ss) ∧
      (generateBatch countingLib doc2 100 ss2 []).1
        = validPrefix (successive countingLib doc2 100 ss2) ∧
      unary 5 = countingLib.saveSyncState (generateBatch countingLib doc2 100 ss2 []).2 :=
  ⟨by decide,
    sync_answer_is_two_batches_and_final_cookie countingLib { now := 2 }
      ⟨"POST", some ⟨some [], [unary 5]⟩⟩ ⟨some [], [unary 5]⟩ [] (seededDB 3)
      ⟨[⟨"default", some "2"⟩], [⟨"1", "default", "AAAA"⟩, ⟨"2", "default", "AAAAAAA="⟩]⟩
      (unary 5) [unary 1, unary 2, unary 3] rfl rfl (by decide)⟩

/-! ### C16: the streaming receive direction -/

/-- The receive loop on a list of reads split in two: the second part is read
only if the loop has not returned on the first. -/
theorem receiveLoop_append (L : Lib Doc SS) (pre rest : List (Option Frame)) (doc : Doc)
    (ss : SS) :
    receiveLoop L (pre ++ rest) doc ss =
      if (receiveLoop L pre doc ss).returned then receiveLoop L pre doc ss
      else receiveLoop L rest (receiveLoop L pre doc ss).doc (receiveLoop L pre doc ss).ss := by
  induction pre generalizing doc ss with
  | nil => simp [receiveLoop]
  | cons read more ih =>
    simp only [List.cons_append, receiveLoop]
    split
    · simp
    · exact ih _ _

/-- C16: `readAndReceiveMessage` returns an error exactly when the read fails
or the frame is binary and `ReceiveMessage` returns an error on its payload;
and the receive loop of `Sync`, once the reads before one went through and
that one makes the step fail, returns there (closing the connection) in the
state that step left, whatever frames would have followed. -/
theorem receive_fails_exactly_on_read_or_decode (L : Lib Doc SS) (read bad : Option Frame)
    (pre post : List (Option Frame)) (doc0 doc : Doc) (ss0 ss : SS) :
    ((readAndReceiveMessage L read doc ss).err = true ↔
      (read = none ∨ ∃ frame, read = some frame ∧ frame.messageType = BinaryMessage ∧
        (L.receiveMessage doc ss frame.payload).err = true)) ∧
    (receiveLoop L pre doc0 ss0 = ⟨doc, ss, false⟩ →
      (readAndReceiveMessage L bad doc ss).err = true →
      receiveLoop L (pre ++ bad :: post) doc0 ss0
        = ⟨(readAndReceiveMessage L bad doc ss).doc, (readAndReceiveMessage L bad doc ss).ss,
            true⟩ ∧
      receiveLoop L (pre ++ bad :: post) doc0 ss0 = receiveLoop L (pre ++ [bad]) doc0 ss0) := by
  constructor
  · cases read with
    | none => simp [readAndReceiveMessage]
    | some frame =>
      by_cases hb : frame.messageType = BinaryMessage
      · simp only [readAndReceiveMessage, hb, if_true]
        cases he : (L.receiveMessage doc ss frame.payload).err <;> simp [hb, he]
      · simp [readAndReceiveMessage, hb]
  · intro hpre hbad
    have h : ∀ rest, receiveLoop L (pre ++ bad :: rest) doc0 ss0
        = ⟨(readAndReceiveMessage L bad doc ss).doc, (readAndReceiveMessage L bad doc ss).ss,
            true⟩ := by
      intro rest
      rw [receiveLoop_append, hpre]
      simp [receiveLoop, hbad]
    exact ⟨h post, by rw [h post, h []]⟩

/-- Witness of C16: after one applied frame, a frame that is not a
serialization ends the loop; the frame behind it is not applied. -/
theorem receive_fails_exactly_on_read_or_decode_witness :
    (receiveLoop countingLib [some ⟨BinaryMessage, unary 2⟩] 1 0 = ⟨2, 2, false⟩ ∧
      (readAndReceiveMessage countingLib (some ⟨BinaryMessage, [1]⟩) 2 2).err = true) ∧
    receiveLoop countingLib
        ([some ⟨BinaryMessage, unary 2⟩] ++ some ⟨BinaryMessage, [1]⟩ ::
          [some ⟨BinaryMessage, unary 9⟩]) 1 0
      = ⟨2, 2, true⟩ ∧
    receiveLoop countingLib
        ([some ⟨BinaryMessage, unary 2⟩] ++ some ⟨BinaryMessage, [1]⟩ ::
          [some ⟨BinaryMessage, unary 9⟩]) 1 0
      = receiveLoop countingLib
        ([some ⟨BinaryMessage, unary 2⟩] ++ [some ⟨BinaryMessage, [1]⟩]) 1 0 :=
  ⟨⟨rfl, rfl⟩,
    (receive_fails_exactly_on_read_or_decode countingLib none (some ⟨BinaryMessage, [1]⟩)
      [some ⟨BinaryMessage, unary 2⟩] [some ⟨BinaryMessage, unary 9⟩] 1 2 0 2).2 rfl rfl⟩

/-! ### C17: one drain cycle of the streaming send direction -/

/-- A drain loop on a sync state that yields the messages `msgs` and then
none, with every write succeeding: it writes them all, in order, and breaks. -/
theorem drain_all (L : Lib Doc SS) (doc : Doc) (writeFails : Nat → Bool) (msgs : List Bytes) :
    ∀ (ss : SS) (i fuel : Nat) (sent : List Frame),
      successive L doc (msgs.length + 1) ss = msgs.map some ++ [none] →
      (∀ j, j < msgs.length → writeFails (i + j) = false) →
      msgs.length < fuel →
      drain L doc writeFails fuel i ss sent
        = some ⟨afterCalls L doc (msgs.length + 1) ss,
            sent ++ msgs.map (fun msg => ⟨BinaryMessage, msg⟩), i + msgs.length,
            DrainEnd.drained⟩ := by
  induction msgs with
  | nil =>
    intro ss i fuel sent hgen _ hfuel
    obtain ⟨f, rfl⟩ : ∃ f, fuel = f + 1 := ⟨fuel - 1, by simp at hfuel; omega⟩
    simp only [List.length_nil, Nat.zero_add, successive, List.map_nil, List.nil_append,
      List.cons.injEq, and_true] at hgen
    cases hg : L.generateMessage doc ss with
    | mk m ss' =>
      rw [hg] at hgen
      simp only at hgen
      subst hgen
      simp [drain, generateAndWriteMessage, hg, afterCalls]
  | cons m ms ih =>
    intro ss i fuel sent hgen hw hfuel
    obtain ⟨f, rfl⟩ : ∃ f, fuel = f + 1 := ⟨fuel - 1, by simp at hfuel; omega⟩
    simp only [List.length_cons, successive, List.map_cons, List.cons_append,
      List.cons.injEq] at hgen
    obtain ⟨hm, hrest⟩ := hgen
    cases hg : L.generateMessage doc ss with
    | mk m' ss' =>
      rw [hg] at hm hrest
      simp only at hm hrest
      subst hm
      have hw0 : writeFails i = false := by simpa using hw 0 (by simp)
      have hih := ih ss' (i + 1) f (sent ++ [⟨BinaryMessage, m⟩]) hrest
        (fun j hj => by
          have := hw (j + 1) (by simp only [List.length_cons]; omega)
          rw [← this]
          congr 1
          omega)
        (by simp only [List.length_cons] at hfuel; omega)
      simp only [drain, generateAndWriteMessage, hg, hw0, Bool.false_eq_true, if_false,
        if_true, Option.toList_some, hih, afterCalls, List.length_cons, List.map_cons,
        List.append_assoc, List.singleton_append]
      congr 2
      omega

/-- A drain loop on a sync state that yields the messages `msgs`, when the
write of the message at position `k` is the first to fail: the `k` messages
before it are written, in order, and the loop returns the error. -/
theorem drain_until_write_fails (L : Lib Doc SS) (doc : Doc) (writeFails : Nat → Bool)
    (msgs : List Bytes) :
    ∀ (k : Nat) (ss : SS) (i fuel : Nat) (sent : List Frame),
      successive L doc msgs.length ss = msgs.map some →
      k < msgs.length →
      (∀ j, j < k → writeFails (i + j) = false) →
      writeFails (i + k) = true →
      k < fuel →
      drain L doc writeFails fuel i ss sent
        = some ⟨afterCalls L doc (k + 1) ss,
            sent ++ (msgs.take k).map (fun msg => ⟨BinaryMessage, msg⟩), i + k + 1,
            DrainEnd.writeFailed⟩ := by
  induction msgs with
  | nil =>
    intro k ss i fuel sent _ hk
    simp at hk
  | cons m ms ih =>
    intro k ss i fuel sent hgen hk hw hfail hfuel
    obtain ⟨f, rfl⟩ : ∃ f, fuel = f + 1 := ⟨fuel - 1, by omega⟩
    simp only [List.length_cons, successive, List.map_cons, List.cons.injEq] at hgen
    obtain ⟨hm, hrest⟩ := hgen
    cases hg : L.generateMessage doc ss with
    | mk m' ss' =>
      rw [hg] at hm hrest
      simp only at hm hrest
      subst hm
      cases k with
      | zero =>
        have hf0 : writeFails i = true := by simpa using hfail
        simp [drain, generateAndWriteMessage, hg, hf0, afterCalls]
      | succ k =>
        have hw0 : writeFails i = false := by simpa using hw 0 (by omega)
        have hih := ih k ss' (i + 1) f (sent ++ [⟨BinaryMessage, m⟩]) hrest
          (by simp only [List.length_cons] at hk; omega)
          (fun j hj => by
            have := hw (j + 1) (by omega)
            rw [← this]
            congr 1
            omega)
          (by
            rw [← hfail]
            congr 1
            omega)
          (by omega)
        simp only [drain, generateAndWriteMessage, hg, hw0, Bool.false_eq_true, if_false,
          if_true, Option.toList_some, hih, afterCalls, List.take_succ_cons, List.map_cons,
          List.append_assoc, List.singleton_append]
        congr 2
        omega

/-- The results of `n` successive calls have length `n`. -/
theorem successive_length (L : Lib Doc SS) (doc : Doc) (n : Nat) (ss : SS) :
    (successive L doc n ss).length = n := by
  induction n generalizing ss with
  | zero => rfl
  | succ n ih => simp [successive, ih]

/-- One more call adds its result at the end. -/
theorem successive_succ (L : Lib Doc SS) (doc : Doc) (n : Nat) (ss : SS) :
    successive L doc (n + 1) ss
      = successive L doc n ss ++ [(L.generateMessage doc (afterCalls L doc n ss)).1] := by
  induction n generalizing ss with
  | zero => simp [successive, afterCalls]
  | succ n ih =>
    rw [successive, ih]
    simp [successive, afterCalls]

/-- C17: let the successive `GenerateMessage` calls on a sync state yield the
messages `msgs` and then none.  A drain loop of the send direction on a
connection whose writes succeed writes exactly those messages, in generation
order, each as one binary frame, and breaks after the call that yields none.
This holds of the cycle a tick starts (lines 84-91) as of the first one
(lines 70-77): the ticker loop goes on with the wake-ups that follow, on the
sync state and the frames the cycle left, so it is blocked in `select` when
none follows and returns when the cancellation follows.  If the write of the
message at position `k` is the first to fail, the loop has written the `k`
messages before it and returns; the send direction of `Sync` returns with it,
whatever wake-ups are pending, in the cycle a tick starts as in the first
one. -/
theorem drain_cycle_sends_every_generatable_message (L : Lib Doc SS) (doc : Doc) (ss : SS)
    (msgs : List Bytes) (writeFails : Nat → Bool) (fuel i : Nat) (sent : List Frame)
    (wakes : List Wake)
    (hgen : successive L doc (msgs.length + 1) ss = msgs.map some ++ [none])
    (hfuel : msgs.length < fuel) :
    ((∀ j, j < msgs.length → writeFails (i + j) = false) →
      drain L doc writeFails fuel i ss sent
        = some ⟨afterCalls L doc (msgs.length + 1) ss,
            sent ++ msgs.map (fun msg => ⟨BinaryMessage, msg⟩), i + msgs.length,
            DrainEnd.drained⟩ ∧
      tickerLoop L doc writeFails fuel (Wake.tick :: wakes) i ss sent
        = tickerLoop L doc writeFails fuel wakes (i + msgs.length)
            (afterCalls L doc (msgs.length + 1) ss)
            (sent ++ msgs.map (fun msg => ⟨BinaryMessage, msg⟩)) ∧
      tickerLoop L doc writeFails fuel [Wake.tick] i ss sent
        = some ⟨afterCalls L doc (msgs.length + 1) ss,
            sent ++ msgs.map (fun msg => ⟨BinaryMessage, msg⟩), false⟩ ∧
      tickerLoop L doc writeFails fuel (Wake.tick :: Wake.done :: wakes) i ss sent
        = some ⟨afterCalls L doc (msgs.length + 1) ss,
            sent ++ msgs.map (fun msg => ⟨BinaryMessage, msg⟩), true⟩ ∧
      (i = 0 → sent = [] →
        sendDirection L doc writeFails fuel wakes ss
          = tickerLoop L doc writeFails fuel wakes msgs.length
              (afterCalls L doc (msgs.length + 1) ss)
              (msgs.map (fun msg => ⟨BinaryMessage, msg⟩)) ∧
        sendDirection L doc writeFails fuel [] ss
          = some ⟨afterCalls L doc (msgs.length + 1) ss,
              msgs.map (fun msg => ⟨BinaryMessage, msg⟩), false⟩ ∧
        sendDirection L doc writeFails fuel (Wake.done :: wakes) ss
          = some ⟨afterCalls L doc (msgs.length + 1) ss,
              msgs.map (fun msg => ⟨BinaryMessage, msg⟩), true⟩)) ∧
    (∀ k, k < msgs.length → (∀ j, j < k → writeFails (i + j) = false) →
      writeFails (i + k) = true →
      drain L doc writeFails fuel i ss sent
        = some ⟨afterCalls L doc (k + 1) ss,
            sent ++ (msgs.take k).map (fun msg => ⟨BinaryMessage, msg⟩), i + k + 1,
            DrainEnd.writeFailed⟩ ∧
      tickerLoop L doc writeFails fuel (Wake.tick :: wakes) i ss sent
        = some ⟨afterCalls L doc (k + 1) ss,
            sent ++ (msgs.take k).map (fun msg => ⟨BinaryMessage, msg⟩), true⟩ ∧
      (i = 0 → sent = [] →
        sendDirection L doc writeFails fuel wakes ss
          = some ⟨afterCalls L doc (k + 1) ss,
              (msgs.take k).map (fun msg => ⟨BinaryMessage, msg⟩), true⟩)) := by
  constructor
  · intro hw
    have hd := drain_all L doc writeFails msgs ss i fuel sent hgen hw hfuel
    refine ⟨hd, ?_, ?_, ?_, ?_⟩
    · simp only [tickerLoop, hd]
    · simp only [tickerLoop, hd]
    · simp only [tickerLoop, hd]
    · intro hi hs
      subst hi
      subst hs
      simp only [Nat.zero_add, List.nil_append] at hd
      refine ⟨?_, ?_, ?_⟩
      · simp only [sendDirection, hd]
      · simp only [sendDirection, hd, tickerLoop]
      · simp only [sendDirection, hd, tickerLoop]
  · intro k hk hw hfail
    have hpre : successive L doc msgs.length ss = msgs.map some := by
      rw [successive_succ] at hgen
      exact (List.append_inj hgen (by simp [successive_length])).1
    have hd := drain_until_write_fails L doc writeFails msgs k ss i fuel sent hpre hk hw hfail
      (by omega)
    refine ⟨hd, ?_, ?_⟩
    · simp only [tickerLoop, hd]
    · intro hi hs
      subst hi
      subst hs
      simp only [sendDirection, hd]
      simp

/-- Witness of C17: the replica holds three changes and the peer none.  With
every write succeeding, the cycle a tick starts after one earlier frame writes
the three messages after it and the ticker loop returns at the cancellation
that follows; so does the first cycle.  With the second write failing the
cycle writes the first message and the send direction returns, the pending
ticks left unserved. -/
theorem drain_cycle_sends_every_generatable_message_witness :
    (successive countingLib 3 ([unary 1, unary 2, unary 3].length + 1) 0
        = [unary 1, unary 2, unary 3].map some ++ [none] ∧
      [unary 1, unary 2, unary 3].length < 10) ∧
    (drain countingLib 3 (fun _ => false) 10 1 0 [⟨BinaryMessage, unary 9⟩]
        = some ⟨afterCalls countingLib 3 ([unary 1, unary 2, unary 3].length + 1) 0,
            [⟨BinaryMessage, unary 9⟩]
              ++ [unary 1, unary 2, unary 3].map (fun msg => ⟨BinaryMessage, msg⟩),
            1 + [unary 1, unary 2, unary 3].length, DrainEnd.drained⟩ ∧
      tickerLoop countingLib 3 (fun _ => false) 10 (Wake.tick :: [Wake.tick, Wake.done]) 1 0
          [⟨BinaryMessage, unary 9⟩]
        = tickerLoop countingLib 3 (fun _ => false) 10 [Wake.tick, Wake.done]
            (1 + [unary 1, unary 2, unary 3].length)
            (afterCalls countingLib 3 ([unary 1, unary 2, unary 3].length + 1) 0)
            ([⟨BinaryMessage, unary 9⟩]
              ++ [unary 1, unary 2, unary 3].map (fun msg => ⟨BinaryMessage, msg⟩)) ∧
      tickerLoop countingLib 3 (fun _ => false) 10 [Wake.tick] 1 0 [⟨BinaryMessage, unary 9⟩]
        = some ⟨afterCalls countingLib 3 ([unary 1, unary 2, unary 3].length + 1) 0,
            [⟨BinaryMessage, unary 9⟩]
              ++ [unary 1, unary 2, unary 3].map (fun msg => ⟨BinaryMessage, msg⟩), false⟩ ∧
      tickerLoop countingLib 3 (fun _ => false) 10
          (Wake.tick :: Wake.done :: [Wake.tick, Wake.done]) 1 0 [⟨BinaryMessage, unary 9⟩]
        = some ⟨afterCalls countingLib 3 ([unary 1, unary 2, unary 3].length + 1) 0,
            [⟨BinaryMessage, unary 9⟩]
              ++ [unary 1, unary 2, unary 3].map (fun msg => ⟨BinaryMessage, msg⟩), true⟩ ∧
      ((1 : Nat) = 0 → ([⟨BinaryMessage, unary 9⟩] : List Frame) = [] →
        sendDirection countingLib 3 (fun _ => false) 10 [Wake.tick, Wake.done] 0
          = tickerLoop countingLib 3 (fun _ => false) 10 [Wake.tick, Wake.done]
              [unary 1, unary 2, unary 3].length
              (afterCalls countingLib 3 ([unary 1, unary 2, unary 3].length + 1) 0)
              ([unary 1, unary 2, unary 3].map (fun msg => ⟨BinaryMessage, msg⟩)) ∧
        sendDirection countingLib 3 (fun _ => false) 10 [] 0
          = some ⟨afterCalls countingLib 3 ([unary 1, unary 2, unary 3].length + 1) 0,
              [unary 1, unary 2, unary 3].map (fun msg => ⟨BinaryMessage, msg⟩), false⟩ ∧
        sendDirection countingLib 3 (fun _ => false) 10 (Wake.done :: [Wake.tick, Wake.done]) 0
          = some ⟨afterCalls countingLib 3 ([unary 1, unary 2, unary 3].length + 1) 0,
              [unary 1, unary 2, unary 3].map (fun msg => ⟨BinaryMessage, msg⟩), true⟩)) ∧
    (sendDirection countingLib 3 (fun _ => false) 10 [Wake.tick, Wake.done] 0
        = tickerLoop countingLib 3 (fun _ => false) 10 [Wake.tick, Wake.done]
            [unary 1, unary 2, unary 3].length
            (afterCalls countingLib 3 ([unary 1, unary 2, unary 3].length + 1) 0)
            ([unary 1, unary 2, unary 3].map (fun msg => ⟨BinaryMessage, msg⟩)) ∧
      sendDirection countingLib 3 (fun _ => false) 10 [] 0
        = some ⟨afterCalls countingLib 3 ([unary 1, unary 2, unary 3].length + 1) 0,
            [unary 1, unary 2, unary 3].map (fun msg => ⟨BinaryMessage, msg⟩), false⟩ ∧
      sendDirection countingLib 3 (fun _ => false) 10 (Wake.done :: [Wake.tick, Wake.done]) 0
        = some ⟨afterCalls countingLib 3 ([unary 1, unary 2, unary 3].length + 1) 0,
            [unary 1, unary 2, unary 3].map (fun msg => ⟨BinaryMessage, msg⟩), true⟩) ∧
    (drain countingLib 3 (fun j => j == 1) 10 0 0 []
        = some ⟨afterCalls countingLib 3 (1 + 1) 0,
            [] ++ ([unary 1, unary 2, unary 3].take 1).map (fun msg => ⟨BinaryMessage, msg⟩),
            0 + 1 + 1, DrainEnd.writeFailed⟩ ∧
      tickerLoop countingLib 3 (fun j => j == 1) 10 (Wake.tick :: [Wake.tick, Wake.tick]) 0 0 []
        = some ⟨afterCalls countingLib 3 (1 + 1) 0,
            [] ++ ([unary 1, unary 2, unary 3].take 1).map (fun msg => ⟨BinaryMessage, msg⟩),
            true⟩ ∧
      ((0 : Nat) = 0 → ([] : List Frame) = [] →
        sendDirection countingLib 3 (fun j => j == 1) 10 [Wake.tick, Wake.tick] 0
          = some ⟨afterCalls countingLib 3 (1 + 1) 0,
              ([unary 1, unary 2, unary 3].take 1).map (fun msg => ⟨BinaryMessage, msg⟩),
              true⟩)) :=
  ⟨⟨by decide, by decide⟩,
    (drain_cycle_sends_every_generatable_message countingLib 3 0 [unary 1, unary 2, unary 3]
      (fun _ => false) 10 1 [⟨BinaryMessage, unary 9⟩] [Wake.tick, Wake.done] (by decide)
      (by decide)).1 (fun _ _ => rfl),
    ((drain_cycle_sends_every_generatable_message countingLib 3 0 [unary 1, unary 2, unary 3]
      (fun _ => false) 10 0 [] [Wake.tick, Wake.done] (by decide)
      (by decide)).1 (fun _ _ => rfl)).2.2.2.2 rfl rfl,
    (drain_cycle_sends_every_generatable_message countingLib 3 0 [unary 1, unary 2, unary 3]
      (fun j => j == 1) 10 0 [] [Wake.tick, Wake.tick] (by decide) (by decide)).2 1 (by decide)
      (fun j hj => by
        have : j = 0 := by omega
        subst this
        rfl)
      rfl⟩

/-! ### C18: the cookie's round trip through the client -/

/-- The base64 of a non-empty byte string is not empty. -/
theorem b64Encode_ne_nil {b : Bytes} (h : b ≠ []) : b64Encode b ≠ [] := by
  match b, h with
  | [_], _ => simp [b64Encode]
  | [_, _], _ => simp [b64Encode]
  | _ :: _ :: _ :: _, _ => simp [b64Encode]

/-- C18: for every non-empty cookie that `server.sync` writes into a response,
the cookie the client stores from that response, whatever it held before, and
sends in its next request is decoded by the server's request parser to that
same byte string. -/
theorem cookie_round_trip_through_client (finalCookie : Bytes) (lastCookie : Option String)
    (hne : finalCookie ≠ []) :
    parseCookie (requestCookie (clientStoreCookie lastCookie (responseCookie finalCookie)))
      = some (some finalCookie) := by
  have hs : String.mk (b64Encode finalCookie) ≠ "" := by
    intro h
    have := congrArg String.data h
    exact b64Encode_ne_nil hne this
  simp only [responseCookie, jsonOfBytes, clientStoreCookie, stringOfJson, hs, ne_eq,
    not_false_eq_true, if_true, requestCookie, jsonOfStringPtr, parseCookie, bytesOfJson,
    b64Decode_b64Encode, Option.map_some']

/-- Witness of C18: the cookie of five zero bytes travels as "AAAAAAA=" and
comes back as the five bytes. -/
theorem cookie_round_trip_through_client_witness :
    unary 5 ≠ [] ∧
    responseCookie (unary 5) = JsonValue.string "AAAAAAA=" ∧
    parseCookie (requestCookie (clientStoreCookie (some "AAAA") (responseCookie (unary 5))))
      = some (some (unary 5)) :=
  ⟨by decide, by decide, cookie_round_trip_through_client (unary 5) (some "AAAA") (by decide)⟩

/-! ### C19: what `Sync` returns -/

/-- A failed read, a failed send and the cancellation, in this order, make
both goroutines of a session return, wherever they stand. -/
theorem Session.step_closing (L : Lib Doc SS) (s : Session Doc SS) :
    (((s.step L (.read none)).step L (.send true)).step L (.wake .done)).receiving = false ∧
    (((s.step L (.read none)).step L (.send true)).step L (.wake .done)).sending
      = SendState.returned := by
  obtain ⟨doc, ss, receiving, sending, closed, sent⟩ := s
  cases receiving <;> cases sending <;>
    simp only [Session.step, readAndReceiveMessage, generateAndWriteMessage, ite_self,
      Bool.true_or, Bool.false_eq_true, if_false, if_true] <;>
    (try (cases hg : (L.generateMessage doc ss).1 <;>
      (rcases hp : L.generateMessage doc ss with ⟨m, ss'⟩
       rw [hp] at hg
       simp only at hg
       subst hg
       simp)))

/-- `Sync` after more events is the session run on from where it stood. -/
theorem Session.run_append (L : Lib Doc SS) (events more : List Event) (doc : Doc) (ss : SS) :
    Session.run L (events ++ more) doc ss
      = more.foldl (Session.step L) (Session.run L events doc ss) := by
  simp [Session.run, List.foldl_append]

/-- C19: `Sync` never returns a non-nil error: after any events it is still
waiting for a goroutine or has returned nil, and from any point a failed
read, a failed send and the cancellation make it return nil.  Hence
`client.connectAndSync` returns nothing but nil or its dial error, and
`server.syncStore` never takes its branch `failed to sync`. -/
theorem Sync_returns_nil (L : Lib Doc SS) (events : List Event) (doc : Doc) (ss : SS)
    (dialErr upgradeErr : Bool) (cache : StringMap Doc) (store : String) :
    (Sync L events doc ss = none ∨ Sync L events doc ss = some none) ∧
    Sync L (events ++ [.read none, .send true, .wake .done]) doc ss = some none ∧
    (Four.client.connectAndSync L dialErr events doc = none ∨
      Four.client.connectAndSync L dialErr events doc = some none ∨
      (dialErr = true ∧
        Four.client.connectAndSync L dialErr events doc = some (some "failed to dial"))) ∧
    (Four.server.syncStore L cache store upgradeErr events).syncFailed = false := by
  have hsync : ∀ (evs : List Event) (d : Doc) (s : SS),
      Sync L evs d s = none ∨ Sync L evs d s = some none := by
    intro evs d s
    unfold Sync
    dsimp only
    split
    · exact Or.inr rfl
    · exact Or.inl rfl
  refine ⟨hsync events doc ss, ?_, ?_, ?_⟩
  · unfold Sync
    dsimp only
    rw [Session.run_append]
    simp only [List.foldl_cons, List.foldl_nil]
    rw [if_pos (Session.step_closing L _)]
  · unfold Four.client.connectAndSync
    cases dialErr with
    | true => exact Or.inr (Or.inr ⟨rfl, rfl⟩)
    | false =>
      rcases hsync events doc (L.newSyncState doc) with h | h
      · left
        simp [h]
      · right
        left
        simp [h]
  · unfold Four.server.syncStore
    cases mapLoad cache store with
    | none => rfl
    | some fromCache =>
      cases upgradeErr with
      | true => rfl
      | false =>
        rcases hsync events fromCache (L.newSyncState fromCache) with h | h <;> simp [h]

/-- The four ways a session ends, on the counting engine with a replica of one
change: the cancellation (after the first drain), a failed read, a frame that
does not apply, and a failed write; each time `Sync` returns nil once the
other goroutine has returned too. -/
theorem Sync_endings :
    Sync countingLib
        [.send false, .send false, .wake .done, .read (some ⟨BinaryMessage, unary 2⟩)] 1 0
      = some none ∧
    Sync countingLib [.read none, .send false, .send false, .wake .done] 1 0 = some none ∧
    Sync countingLib [.read (some ⟨BinaryMessage, [1]⟩), .send false] 1 0 = some none ∧
    Sync countingLib [.send true, .read (some ⟨BinaryMessage, unary 2⟩)] 1 0 = some none ∧
    Sync countingLib [.send false, .send false, .wake .tick, .send false] 1 0 = none := by
  decide

/-! ### C13: the store cache after `server.init` of `cmd/four` -/

/-- Dropping the entries of one key does not change what another key finds. -/
theorem find_filter_other_key {α : Type} (m : StringMap α) (key key' : String)
    (h : key' ≠ key) :
    (m.filter fun e => e.1 != key).find? (fun e => e.1 == key')
      = m.find? (fun e => e.1 == key') := by
  induction m with
  | nil => rfl
  | cons e rest ih =>
    cases hb1 : (e.1 != key) <;> cases hb2 : (e.1 == key')
    · simp only [List.filter_cons, hb1, List.find?_cons, hb2, Bool.false_eq_true, if_false]
      exact ih
    · exfalso
      simp only [bne_eq_false_iff_eq, beq_iff_eq] at hb1 hb2
      exact h (hb2.symm.trans hb1)
    · simp only [List.filter_cons, hb1, List.find?_cons, hb2, if_true]
      exact ih
    · simp only [List.filter_cons, hb1, List.find?_cons, hb2, if_true]

/-- Looking a key up after a store: the stored value for that key, the old
entry for any other. -/
theorem mapLoad_mapStore {α : Type} (m : StringMap α) (key key' : String) (value : α) :
    mapLoad (mapStore m key value) key' = if key' = key then some value else mapLoad m key' := by
  unfold mapLoad mapStore
  by_cases h : key' = key
  · subst h
    simp
  · have h' : (key == key') = false := by
      simp only [beq_eq_false_iff_ne, ne_eq]
      exact fun e => h e.symm
    rw [List.find?_cons, if_neg h]
    simp only [h']
    rw [find_filter_other_key m key key' h]

/-- A store keeps the keys distinct. -/
theorem mapStore_nodup {α : Type} (m : StringMap α) (key : String) (value : α)
    (h : (m.map Prod.fst).Nodup) : ((mapStore m key value).map Prod.fst).Nodup := by
  unfold mapStore
  simp only [List.map_cons, List.nodup_cons, List.mem_map, List.mem_filter, bne_iff_ne, ne_eq,
    Prod.exists, exists_and_right, exists_eq_right, not_exists, not_and, not_not]
  exact ⟨fun _ => trivial, List.Nodup.sublist (List.Sublist.map _ (List.filter_sublist _)) h⟩

/-- A key that loads is the key of an entry. -/
theorem mapLoad_isSome_iff {α : Type} (m : StringMap α) (key : String) :
    (mapLoad m key).isSome ↔ key ∈ m.map Prod.fst := by
  unfold mapLoad
  simp only [Option.isSome_map', List.find?_isSome, beq_iff_eq, Prod.exists, exists_and_right,
    exists_eq_right, List.mem_map]

/-- `INSERT OR IGNORE` keeps the keys of the table distinct. -/
theorem insertOrIgnore_nodup (rows : List ContentRow) (row : ContentRow)
    (h : (rows.map ContentRow.id).Nodup) :
    ((insertOrIgnore rows row).map ContentRow.id).Nodup := by
  unfold insertOrIgnore
  split
  · exact h
  · rename_i hnot
    simp only [Bool.not_eq_true, List.any_eq_false, beq_iff_eq] at hnot
    rw [List.map_append, List.nodup_append]
    refine ⟨h, by simp, ?_⟩
    intro a ha hb
    simp only [List.map_cons, List.map_nil, List.mem_singleton] at hb
    subst hb
    obtain ⟨r, hr, hid⟩ := List.mem_map.mp ha
    exact hnot r hr hid

/-- What the loading loop leaves when it goes through: every row is loaded
under its key, the other keys are as before, and the keys stay distinct. -/
theorem loadRows_some (L : Lib Doc SS) :
    ∀ (rows : List ContentRow) (cache0 cache : StringMap Doc),
      (rows.map ContentRow.id).Nodup → loadRows L rows cache0 = some cache →
      (∀ r ∈ rows, ∃ doc, LoadsTo L r doc ∧ mapLoad cache r.id = some doc) ∧
      (∀ key, (∀ r ∈ rows, r.id ≠ key) → mapLoad cache key = mapLoad cache0 key) ∧
      ((cache0.map Prod.fst).Nodup → (cache.map Prod.fst).Nodup) := by
  intro rows
  induction rows with
  | nil =>
    intro cache0 cache _ h
    simp only [loadRows, Option.some.injEq] at h
    subst h
    exact ⟨by simp, fun _ _ => rfl, id⟩
  | cons row rest ih =>
    intro cache0 cache hnd h
    simp only [List.map_cons, List.nodup_cons] at hnd
    obtain ⟨hnotin, hnd'⟩ := hnd
    unfold loadRows at h
    split at h
    · simp at h
    · rename_i rawSave hc
      split at h
      · simp at h
      · rename_i raw hd
        split at h
        · simp at h
        · rename_i doc hl
          obtain ⟨h1, h2, h3⟩ := ih _ cache hnd' h
          refine ⟨?_, ?_, ?_⟩
          · intro r hr
            rcases List.mem_cons.mp hr with rfl | hr
            · refine ⟨doc, ⟨rawSave, raw, hc, hd, hl⟩, ?_⟩
              rw [h2 r.id (fun r' hr' hid => hnotin (List.mem_map.mpr ⟨r', hr', hid⟩)),
                mapLoad_mapStore]
              simp
            · exact h1 r hr
          · intro key hkey
            rw [h2 key (fun r hr => hkey r (List.mem_cons_of_mem _ hr)), mapLoad_mapStore]
            have : ¬ key = row.id := fun e => hkey row (List.mem_cons_self _ _) e.symm
            simp [this]
          · intro h0
            exact h3 (mapStore_nodup _ _ _ h0)

/-- A row that cannot be loaded makes the loading loop fail. -/
theorem loadRows_none (L : Lib Doc SS) :
    ∀ (rows : List ContentRow) (cache0 : StringMap Doc),
      (∃ r ∈ rows, Unloadable L r) → loadRows L rows cache0 = none := by
  intro rows
  induction rows with
  | nil =>
    intro cache0 h
    simp at h
  | cons row rest ih =>
    intro cache0 h
    obtain ⟨r, hr, rawSave, hc, hbad⟩ := h
    unfold loadRows
    split
    · rfl
    · rename_i rawSave' hc'
      split
      · rfl
      · rename_i raw hd
        split
        · rfl
        · rename_i doc hl
          rcases List.mem_cons.mp hr with rfl | hr
          · exfalso
            rw [hc] at hc'
            simp only [Option.some.injEq] at hc'
            subst hc'
            rcases hbad with hb | ⟨raw', hb, hb'⟩
            · rw [hb] at hd
              simp at hd
            · rw [hb] at hd
              simp only [Option.some.injEq] at hd
              subst hd
              rw [hb'] at hl
              simp at hl
          · exact ih _ ⟨r, hr, rawSave, hc, hbad⟩

/-- The cache when the iteration over the rows does not fail: let the table
satisfy its primary key and `res.Next()` not end on an error.  If
`server.init` of `cmd/four` succeeds, the table is the one found, with a row
for "default" holding the base64 of an empty replica's serialization added
when it had none and nothing changed when it had one; the cache holds, under
distinct keys, the replica loaded from each row's content and no other key,
and it has the key "default".  If the content of any row does not
base64-decode or does not load, `init` fails. -/
theorem init_cache_holds_every_row (L : Lib Doc SS) (newDoc : Doc) (env : InitEnv)
    (table : Option (List ContentRow))
    (hpk : ((createTableIfNotExists table).map ContentRow.id).Nodup)
    (hnext : env.nextErrAfter = none) :
    (∀ cache, (Four.server.init L newDoc env table).cache = some cache →
      ∃ rows, (Four.server.init L newDoc env table).table = some rows ∧
        ((∀ r ∈ createTableIfNotExists table, r.id ≠ "default") →
          rows = createTableIfNotExists table
            ++ [⟨"default", some (L.encodeToString (L.save newDoc))⟩]) ∧
        ((∃ r ∈ createTableIfNotExists table, r.id = "default") →
          rows = createTableIfNotExists table) ∧
        (∀ r ∈ rows, ∃ doc, LoadsTo L r doc ∧ mapLoad cache r.id = some doc) ∧
        (∀ key, (mapLoad cache key).isSome → ∃ r ∈ rows, r.id = key) ∧
        (cache.map Prod.fst).Nodup ∧
        (mapLoad cache "default").isSome) ∧
    ((∃ r ∈ insertOrIgnore (createTableIfNotExists table)
          ⟨"default", some (L.encodeToString (L.save newDoc))⟩, Unloadable L r) →
      (Four.server.init L newDoc env table).cache = none) := by
  constructor
  · intro cache h
    unfold Four.server.init at h ⊢
    dsimp only at h ⊢
    split at h
    · simp at h
    · split at h
      · simp at h
      · split at h
        · simp at h
        · rw [hnext] at h ⊢
          simp only at h ⊢
          rename_i hc hi hq
          simp only [hc, hi, hq, Bool.false_eq_true, if_false]
          refine ⟨_, rfl, ?_, ?_, ?_⟩
          · intro hno
            have : (createTableIfNotExists table).any (fun r => r.id == "default") = false := by
              rw [List.any_eq_false]
              intro r hr
              simpa using hno r hr
            simp [insertOrIgnore, this]
          · rintro ⟨r, hr, hid⟩
            have : (createTableIfNotExists table).any (fun r => r.id == "default") = true := by
              rw [List.any_eq_true]
              exact ⟨r, hr, by simpa using hid⟩
            simp [insertOrIgnore, this]
          · obtain ⟨h1, h2, h3⟩ := loadRows_some L _ [] cache (insertOrIgnore_nodup _ _ hpk) h
            have hkey : ∀ key, (mapLoad cache key).isSome →
                ∃ r ∈ insertOrIgnore (createTableIfNotExists table)
                  ⟨"default", some (L.encodeToString (L.save newDoc))⟩, r.id = key := by
              intro key hsome
              by_contra hcon
              have hnone := h2 key (fun r hr hid => hcon ⟨r, hr, hid⟩)
              rw [hnone] at hsome
              simp [mapLoad] at hsome
            refine ⟨h1, hkey, h3 (by simp), ?_⟩
            have hdef : ∃ r ∈ insertOrIgnore (createTableIfNotExists table)
                ⟨"default", some (L.encodeToString (L.save newDoc))⟩, r.id = "default" := by
              unfold insertOrIgnore
              split
              · rename_i hany
                obtain ⟨r, hr, hid⟩ := List.any_eq_true.mp hany
                exact ⟨r, hr, by simpa using hid⟩
              · exact ⟨_, List.mem_append_right _ (List.mem_singleton_self _), rfl⟩
            obtain ⟨r, hr, hid⟩ := hdef
            obtain ⟨doc, -, hload⟩ := h1 r hr
            rw [hid] at hload
            simp [hload]
  · intro hbad
    unfold Four.server.init
    dsimp only
    split
    · rfl
    · split
      · rfl
      · split
        · rfl
        · rw [hnext]
          exact loadRows_none L _ [] hbad

/-- An instance with no iteration error: the table holds one store of three
changes and no row for "default"; `init` seeds "default" with the empty
replica and caches both; with a row that is not base64, `init` fails. -/
theorem init_cache_holds_every_row_witness :
    ((((createTableIfNotExists (some [(⟨"a", some "AAAA"⟩ : ContentRow)])).map
        ContentRow.id).Nodup ∧
      ({} : InitEnv).nextErrAfter = none) ∧
      Four.server.init countingLib 0 {} (some [⟨"a", some "AAAA"⟩])
        = ⟨some [⟨"a", some "AAAA"⟩, ⟨"default", some ""⟩], some [("default", 0), ("a", 3)]⟩ ∧
      (Four.server.init countingLib 0 {} (some [⟨"a", some "AAAA"⟩, ⟨"b", some "?"⟩])).cache
        = none) ∧
    (∀ cache, (Four.server.init countingLib 0 {} (some [⟨"a", some "AAAA"⟩])).cache
        = some cache →
      ∃ rows, (Four.server.init countingLib 0 {} (some [⟨"a", some "AAAA"⟩])).table
          = some rows ∧
        ((∀ r ∈ createTableIfNotExists (some [(⟨"a", some "AAAA"⟩ : ContentRow)]),
            r.id ≠ "default") →
          rows = createTableIfNotExists (some [(⟨"a", some "AAAA"⟩ : ContentRow)])
            ++ [⟨"default", some (countingLib.encodeToString (countingLib.save 0))⟩]) ∧
        ((∃ r ∈ createTableIfNotExists (some [(⟨"a", some "AAAA"⟩ : ContentRow)]),
            r.id = "default") →
          rows = createTableIfNotExists (some [(⟨"a", some "AAAA"⟩ : ContentRow)])) ∧
        (∀ r ∈ rows, ∃ doc, LoadsTo countingLib r doc ∧ mapLoad cache r.id = some doc) ∧
        (∀ key, (mapLoad cache key).isSome → ∃ r ∈ rows, r.id = key) ∧
        (cache.map Prod.fst).Nodup ∧
        (mapLoad cache "default").isSome) :=
  ⟨⟨⟨by decide, rfl⟩, by rfl, by decide⟩,
    (init_cache_holds_every_row countingLib 0 {} (some [⟨"a", some "AAAA"⟩]) (by decide)
      rfl).1⟩

/-- C13: the failing input.  The table holds a row "a" that loads and a row
"b" whose content is not base64, and the iteration over the rows fails after
the first one.  `res.Next()` then reports the end of the rows, `res.Err()` is
not looked at (lines 166-182), and `init` returns no error: the cache holds
"a" alone, with no entry for "default" nor for "b" though both are rows of the
table, and the row that does not decode has not made `init` fail, as it does
when the iteration reaches it.  On a database without the table, an iteration
that fails at once leaves an empty cache, without the store "default" that
`init` has just seeded. -/
theorem init_succeeds_on_row_iteration_error :
    Four.server.init countingLib 0 { nextErrAfter := some 1 }
        (some [⟨"a", some "AAAA"⟩, ⟨"b", some "?"⟩])
      = ⟨some [⟨"a", some "AAAA"⟩, ⟨"b", some "?"⟩, ⟨"default", some ""⟩], some [("a", 3)]⟩ ∧
    mapLoad [("a", 3)] "default" = none ∧
    mapLoad [("a", 3)] "b" = none ∧
    countingLib.decodeString "?" = none ∧
    (Four.server.init countingLib 0 {} (some [⟨"a", some "AAAA"⟩, ⟨"b", some "?"⟩])).cache
      = none ∧
    Four.server.init countingLib 0 { nextErrAfter := some 0 } none
      = ⟨some [⟨"default", some ""⟩], some []⟩ :=
  ⟨by rfl, by decide, by decide, by decide, by decide, by rfl⟩

/-! ### C11: the backup sweep -/

/-- The update of one store leaves the rows of another store alone. -/
theorem updateContent_other (rows : List ContentRow) (newContent storeId other : String)
    (h : other ≠ storeId) (r : ContentRow) (hr : r.id = other) :
    r ∈ (updateContent rows newContent storeId).1 ↔ r ∈ rows := by
  simp only [updateContent, List.mem_map]
  constructor
  · rintro ⟨r', hr', he⟩
    split at he
    · rename_i hc
      exfalso
      rw [← he] at hr
      exact h (hr.symm.trans hc.1)
    · rw [← he]
      exact hr'
  · intro hmem
    refine ⟨r, hmem, ?_⟩
    rw [if_neg]
    intro hc
    exact h (hr.symm.trans hc.1)

/-- The update of a store whose rows hold the content `c`: rows are affected
exactly when `c` differs from the new content, and afterwards the rows of the
store hold the new content. -/
theorem updateContent_own (rows : List ContentRow) (newContent storeId c : String)
    (hex : ∃ r ∈ rows, r.id = storeId)
    (hrows : ∀ r ∈ rows, r.id = storeId → r.content = some c) :
    ((updateContent rows newContent storeId).2 > 0 ↔ c ≠ newContent) ∧
    (∃ r ∈ (updateContent rows newContent storeId).1, r.id = storeId) ∧
    (∀ r ∈ (updateContent rows newContent storeId).1, r.id = storeId →
      r.content = some newContent) := by
  refine ⟨?_, ?_, ?_⟩
  · simp only [updateContent, gt_iff_lt, List.countP_pos_iff, Bool.and_eq_true, beq_iff_eq,
      bne_iff_ne, ne_eq]
    constructor
    · rintro ⟨r, hr, ⟨hid, -⟩, hne⟩ hc
      rw [hrows r hr hid, hc] at hne
      exact hne rfl
    · intro hc
      obtain ⟨r, hr, hid⟩ := hex
      refine ⟨r, hr, ⟨hid, ?_⟩, ?_⟩
      · rw [hrows r hr hid]
        simp
      · rw [hrows r hr hid]
        simpa using hc
  · obtain ⟨r, hr, hid⟩ := hex
    simp only [updateContent, List.mem_map]
    by_cases hc : r.id = storeId ∧ r.content ≠ none ∧ r.content ≠ some newContent
    · exact ⟨_, ⟨r, hr, if_pos hc⟩, hid⟩
    · exact ⟨_, ⟨r, hr, if_neg hc⟩, hid⟩
  · intro r hr hid
    simp only [updateContent, List.mem_map] at hr
    obtain ⟨r', hr', he⟩ := hr
    split at he
    · rw [← he]
    · rename_i hc
      rw [← he] at hid ⊢
      have hcont := hrows r' hr' hid
      by_contra hne
      apply hc
      refine ⟨hid, ?_, hne⟩
      rw [hcont]
      simp

/-- A sweep over replicas of other stores leaves the rows of a store alone and
does not write it. -/
theorem sweep_other (L : Lib Doc SS) (execErr : String → Bool) (storeId : String) :
    ∀ (cache : StringMap Doc) (rows : List ContentRow) (written : List String),
      storeId ∉ cache.map Prod.fst →
      (∀ r : ContentRow, r.id = storeId →
        (r ∈ (sweep L execErr cache rows written).rows ↔ r ∈ rows)) ∧
      (storeId ∈ (sweep L execErr cache rows written).written ↔ storeId ∈ written) := by
  intro cache
  induction cache with
  | nil =>
    intro rows written _
    simp [sweep]
  | cons e rest ih =>
    intro rows written hnot
    obtain ⟨k, d⟩ := e
    simp only [List.map_cons, List.mem_cons, not_or] at hnot
    obtain ⟨hk, hrest⟩ := hnot
    simp only [sweep]
    split
    · exact ih rows written hrest
    · split
      · obtain ⟨h1, h2⟩ := ih (updateContent rows (L.encodeToString (L.save d)) k).1
          (written ++ [k]) hrest
        refine ⟨fun r hr => (h1 r hr).trans (updateContent_other rows _ k storeId hk r hr), ?_⟩
        rw [h2]
        simp [hk]
      · obtain ⟨h1, h2⟩ := ih (updateContent rows (L.encodeToString (L.save d)) k).1
          written hrest
        exact ⟨fun r hr => (h1 r hr).trans (updateContent_other rows _ k storeId hk r hr), h2⟩

/-- A sweep writes the row of a cached store exactly when its content differs
from the base64 of the replica's serialization, and leaves that in the row. -/
theorem sweep_store (L : Lib Doc SS) (execErr : String → Bool) (storeId : String) (doc : Doc)
    (c : String) (hexec : execErr storeId = false) :
    ∀ (cache : StringMap Doc) (rows : List ContentRow) (written : List String),
      (cache.map Prod.fst).Nodup → (storeId, doc) ∈ cache →
      (∃ r ∈ rows, r.id = storeId) → (∀ r ∈ rows, r.id = storeId → r.content = some c) →
      storeId ∉ written →
      (storeId ∈ (sweep L execErr cache rows written).written ↔
        c ≠ L.encodeToString (L.save doc)) ∧
      (∃ r ∈ (sweep L execErr cache rows written).rows, r.id = storeId) ∧
      (∀ r ∈ (sweep L execErr cache rows written).rows, r.id = storeId →
        r.content = some (L.encodeToString (L.save doc))) := by
  intro cache
  induction cache with
  | nil =>
    intro rows written _ hmem
    simp at hmem
  | cons e rest ih =>
    intro rows written hnd hmem hex hrows hnw
    obtain ⟨k, d⟩ := e
    simp only [List.map_cons, List.nodup_cons] at hnd
    obtain ⟨hk, hnd'⟩ := hnd
    rcases List.mem_cons.mp hmem with heq | hmem'
    · simp only [Prod.mk.injEq] at heq
      obtain ⟨rfl, rfl⟩ := heq
      obtain ⟨u1, u2, u3⟩ := updateContent_own rows (L.encodeToString (L.save doc)) storeId c
        hex hrows
      simp only [sweep, hexec, Bool.false_eq_true, if_false]
      split
      · rename_i hpos
        obtain ⟨h1, h2⟩ := sweep_other L execErr storeId rest
          (updateContent rows (L.encodeToString (L.save doc)) storeId).1 (written ++ [storeId]) hk
        refine ⟨?_, ?_, ?_⟩
        · rw [h2]
          simp only [List.mem_append, List.mem_singleton, or_true, true_iff]
          exact u1.mp hpos
        · obtain ⟨r, hr, hid⟩ := u2
          exact ⟨r, (h1 r hid).mpr hr, hid⟩
        · intro r hr hid
          exact u3 r ((h1 r hid).mp hr) hid
      · rename_i hpos
        obtain ⟨h1, h2⟩ := sweep_other L execErr storeId rest
          (updateContent rows (L.encodeToString (L.save doc)) storeId).1 written hk
        refine ⟨?_, ?_, ?_⟩
        · rw [h2]
          constructor
          · intro hw
            exact absurd hw hnw
          · intro hc
            exact absurd (u1.mpr hc) hpos
        · obtain ⟨r, hr, hid⟩ := u2
          exact ⟨r, (h1 r hid).mpr hr, hid⟩
        · intro r hr hid
          exact u3 r ((h1 r hid).mp hr) hid
    · have hne : storeId ≠ k := by
        intro e
        apply hk
        rw [← e]
        exact List.mem_map.mpr ⟨(storeId, doc), hmem', rfl⟩
      simp only [sweep]
      split
      · exact ih rows written hnd' hmem' hex hrows hnw
      · have hex' : ∃ r ∈ (updateContent rows (L.encodeToString (L.save d)) k).1,
            r.id = storeId := by
          obtain ⟨r, hr, hid⟩ := hex
          exact ⟨r, (updateContent_other rows _ k storeId hne r hid).mpr hr, hid⟩
        have hrows' : ∀ r ∈ (updateContent rows (L.encodeToString (L.save d)) k).1,
            r.id = storeId → r.content = some c := fun r hr hid =>
          hrows r ((updateContent_other rows _ k storeId hne r hid).mp hr) hid
        split
        · refine ih _ (written ++ [k]) hnd' hmem' hex' hrows' ?_
          simp only [List.mem_append, List.mem_singleton, not_or]
          exact ⟨hnw, hne⟩
        · exact ih _ written hnd' hmem' hex' hrows' hnw

/-- The update of a store whose rows hold NULL or the new content changes
nothing. -/
theorem updateContent_settled (rows : List ContentRow) (newContent storeId : String)
    (h : ∀ r ∈ rows, r.id = storeId → r.content = none ∨ r.content = some newContent) :
    updateContent rows newContent storeId = (rows, 0) := by
  unfold updateContent
  congr 1
  · conv_rhs => rw [← List.map_id rows]
    apply List.map_congr_left
    intro r hr
    rw [if_neg]
    · rfl
    · rintro ⟨hid, h1, h2⟩
      rcases h r hr hid with h' | h'
      · exact h1 h'
      · exact h2 h'
  · rw [List.countP_eq_zero]
    intro r hr
    simp only [Bool.and_eq_true, beq_iff_eq, bne_iff_ne, ne_eq, not_and, not_not]
    rintro ⟨hid, h1⟩
    rcases h r hr hid with h' | h'
    · exact absurd h' h1
    · exact h'

/-- After the update of a store its rows hold NULL or the new content. -/
theorem updateContent_settles (rows : List ContentRow) (newContent storeId : String) :
    ∀ r ∈ (updateContent rows newContent storeId).1, r.id = storeId →
      r.content = none ∨ r.content = some newContent := by
  intro r hr hid
  simp only [updateContent, List.mem_map] at hr
  obtain ⟨r', hr', he⟩ := hr
  split at he
  · rw [← he]
    exact Or.inr rfl
  · rename_i hc
    rw [← he] at hid ⊢
    by_cases h1 : r'.content = none
    · exact Or.inl h1
    · by_cases h2 : r'.content = some newContent
      · exact Or.inr h2
      · exact absurd ⟨hid, h1, h2⟩ hc

/-- A sweep over a table whose rows hold, for every cached store, NULL or the
base64 of the replica's serialization, changes no row and writes nothing. -/
theorem sweep_settled (L : Lib Doc SS) (execErr : String → Bool) :
    ∀ (cache : StringMap Doc) (rows : List ContentRow) (written : List String),
      (∀ e ∈ cache, ∀ r ∈ rows, r.id = e.1 →
        r.content = none ∨ r.content = some (L.encodeToString (L.save e.2))) →
      sweep L execErr cache rows written = ⟨rows, written⟩ := by
  intro cache
  induction cache with
  | nil =>
    intro rows written _
    rfl
  | cons e rest ih =>
    intro rows written h
    obtain ⟨k, d⟩ := e
    have hrest := ih rows written (fun e he => h e (List.mem_cons_of_mem _ he))
    simp only [sweep]
    split
    · exact hrest
    · rw [updateContent_settled rows _ k (h (k, d) (List.mem_cons_self _ _))]
      simpa using hrest

/-- A sweep without `ExecContext` errors leaves, for every cached store, NULL
or the base64 of the replica's serialization in its rows. -/
theorem sweep_settles (L : Lib Doc SS) :
    ∀ (cache : StringMap Doc) (rows : List ContentRow) (written : List String),
      (cache.map Prod.fst).Nodup →
      ∀ e ∈ cache, ∀ r ∈ (sweep L (fun _ => false) cache rows written).rows, r.id = e.1 →
        r.content = none ∨ r.content = some (L.encodeToString (L.save e.2)) := by
  intro cache
  induction cache with
  | nil =>
    intro rows written _ e he
    simp at he
  | cons e0 rest ih =>
    intro rows written hnd e he r hr hid
    obtain ⟨k, d⟩ := e0
    simp only [List.map_cons, List.nodup_cons] at hnd
    obtain ⟨hk, hnd'⟩ := hnd
    simp only [sweep, Bool.false_eq_true, if_false] at hr
    rcases List.mem_cons.mp he with rfl | he'
    · simp only at hid
      split at hr
      · have hiff := (sweep_other L (fun _ => false) k rest
          (updateContent rows (L.encodeToString (L.save d)) k).1 (written ++ [k]) hk).1 r hid
        exact updateContent_settles rows _ k r (hiff.mp hr) hid
      · have hiff := (sweep_other L (fun _ => false) k rest
          (updateContent rows (L.encodeToString (L.save d)) k).1 written hk).1 r hid
        exact updateContent_settles rows _ k r (hiff.mp hr) hid
    · split at hr
      · exact ih _ _ hnd' e he' r hr hid
      · exact ih _ _ hnd' e he' r hr hid

/-- C11: let the cache hold one replica per store.  For a cached store whose
row exists and holds a content, a backup sweep (its `ExecContext` for that
store not failing) writes the row if and only if the stored content differs
from the base64 of the replica's serialization, and after the sweep the row
holds that base64; and after a sweep without `ExecContext` errors, a second
sweep over the same replicas writes nothing. -/
theorem backup_sweep_writes_only_changes (L : Lib Doc SS) (execErr : String → Bool)
    (cache : StringMap Doc) (rows : List ContentRow) (storeId : String) (doc : Doc)
    (c : String)
    (hkeys : (cache.map Prod.fst).Nodup) (hmem : (storeId, doc) ∈ cache)
    (hex : ∃ r ∈ rows, r.id = storeId)
    (hrows : ∀ r ∈ rows, r.id = storeId → r.content = some c)
    (hexec : execErr storeId = false) :
    (storeId ∈ (sweep L execErr cache rows []).written ↔
      c ≠ L.encodeToString (L.save doc)) ∧
    (∃ r ∈ (sweep L execErr cache rows []).rows, r.id = storeId) ∧
    (∀ r ∈ (sweep L execErr cache rows []).rows, r.id = storeId →
      r.content = some (L.encodeToString (L.save doc))) ∧
    (∀ execErr2, sweep L execErr2 cache (sweep L (fun _ => false) cache rows []).rows []
      = ⟨(sweep L (fun _ => false) cache rows []).rows, []⟩) := by
  obtain ⟨h1, h2, h3⟩ := sweep_store L execErr storeId doc c hexec cache rows [] hkeys hmem hex
    hrows (by simp)
  exact ⟨h1, h2, h3, fun execErr2 =>
    sweep_settled L execErr2 cache _ [] (sweep_settles L cache rows [] hkeys)⟩

/-- Witness of C11: two cached stores, one whose replica grew since its row
was written and one unchanged; the sweep writes the first only, and a second
sweep writes nothing. -/
theorem backup_sweep_writes_only_changes_witness :
    ((([("a", 5), ("b", 3)] : StringMap Nat).map Prod.fst).Nodup ∧
      (("a", 5) : String × Nat) ∈ ([("a", 5), ("b", 3)] : StringMap Nat) ∧
      (∃ r ∈ [(⟨"a", some "AAAA"⟩ : ContentRow), ⟨"b", some "AAAA"⟩], r.id = "a") ∧
      (∀ r ∈ [(⟨"a", some "AAAA"⟩ : ContentRow), ⟨"b", some "AAAA"⟩],
        r.id = "a" → r.content = some "AAAA") ∧
      sweep countingLib (fun _ => false) [("a", 5), ("b", 3)]
          [⟨"a", some "AAAA"⟩, ⟨"b", some "AAAA"⟩] []
        = ⟨[⟨"a", some "AAAAAAA="⟩, ⟨"b", some "AAAA"⟩], ["a"]⟩) ∧
    ("a" ∈ (sweep countingLib (fun _ => false) [("a", 5), ("b", 3)]
          [⟨"a", some "AAAA"⟩, ⟨"b", some "AAAA"⟩] []).written ↔
      "AAAA" ≠ countingLib.encodeToString (countingLib.save 5)) ∧
    (∃ r ∈ (sweep countingLib (fun _ => false) [("a", 5), ("b", 3)]
          [⟨"a", some "AAAA"⟩, ⟨"b", some "AAAA"⟩] []).rows, r.id = "a") ∧
    (∀ r ∈ (sweep countingLib (fun _ => false) [("a", 5), ("b", 3)]
          [⟨"a", some "AAAA"⟩, ⟨"b", some "AAAA"⟩] []).rows,
      r.id = "a" → r.content = some (countingLib.encodeToString (countingLib.save 5))) ∧
    (∀ execErr2, sweep countingLib execErr2 [("a", 5), ("b", 3)]
        (sweep countingLib (fun _ => false) [("a", 5), ("b", 3)]
          [⟨"a", some "AAAA"⟩, ⟨"b", some "AAAA"⟩] []).rows []
      = ⟨(sweep countingLib (fun _ => false) [("a", 5), ("b", 3)]
          [⟨"a", some "AAAA"⟩, ⟨"b", some "AAAA"⟩] []).rows, []⟩) :=
  ⟨⟨by decide, by decide, by decide, by decide, by decide⟩,
    backup_sweep_writes_only_changes countingLib (fun _ => false) [("a", 5), ("b", 3)]
      [⟨"a", some "AAAA"⟩, ⟨"b", some "AAAA"⟩] "a" 5 "AAAA" (by decide) (by decide)
      (by decide) (by decide) rfl⟩

/-! ### C12: the shutdown of the streaming server -/

/-- A sweep whose every `ExecContext` fails leaves the table alone. -/
theorem sweep_all_failing (L : Lib Doc SS) :
    ∀ (cache : StringMap Doc) (rows : List ContentRow) (written : List String),
      sweep L (fun _ => true) cache rows written = ⟨rows, written⟩ := by
  intro cache
  induction cache with
  | nil =>
    intro rows written
    rfl
  | cons e rest ih =>
    intro rows written
    obtain ⟨k, d⟩ := e
    simp only [sweep, if_true]
    exact ih rows written

/-- The ticks the backup goroutine takes after the cancellation leave the
table alone. -/
theorem backupLoop_after_cancel (L : Lib Doc SS) (cache : StringMap Doc) (lateTicks : Nat)
    (rows : List ContentRow) :
    backupLoop L
        (List.replicate lateTicks (BackupWake.tick cache fun _ => true) ++ [BackupWake.done])
        rows = rows := by
  induction lateTicks with
  | zero => rfl
  | succ n ih =>
    simp only [List.replicate_succ, List.cons_append, backupLoop, sweep_all_failing]
    exact ih

/-- The dump of replicas whose files have other paths leaves a file alone. -/
theorem dumpAll_other (L : Lib Doc SS) (actorID : Doc → String) (tempDir : String)
    (createErr writeErr : String → Bool) (path : String) :
    ∀ (cache : StringMap Doc) (files : StringMap Bytes),
      path ∉ cache.map (fun e => dumpPath tempDir (actorID e.2)) →
      mapLoad (dumpAll L actorID tempDir createErr writeErr cache files) path
        = mapLoad files path := by
  intro cache
  induction cache with
  | nil =>
    intro files _
    rfl
  | cons e rest ih =>
    intro files hnot
    obtain ⟨k, d⟩ := e
    simp only [List.map_cons, List.mem_cons, not_or] at hnot
    obtain ⟨hne, hrest⟩ := hnot
    simp only [dumpAll]
    split
    · exact ih files hrest
    · split
      · rw [ih _ hrest, mapLoad_mapStore, if_neg hne]
      · rw [ih _ hrest, mapLoad_mapStore, if_neg hne]

/-- The dump writes the serialization of a cached replica to its file. -/
theorem dumpAll_store (L : Lib Doc SS) (actorID : Doc → String) (tempDir : String)
    (createErr writeErr : String → Bool) (storeId : String) (doc : Doc)
    (hcreate : createErr storeId = false) (hwrite : writeErr storeId = false) :
    ∀ (cache : StringMap Doc) (files : StringMap Bytes),
      (cache.map (fun e => dumpPath tempDir (actorID e.2))).Nodup →
      (storeId, doc) ∈ cache →
      mapLoad (dumpAll L actorID tempDir createErr writeErr cache files)
        (dumpPath tempDir (actorID doc)) = some (L.save doc) := by
  intro cache
  induction cache with
  | nil =>
    intro files _ hmem
    simp at hmem
  | cons e rest ih =>
    intro files hnd hmem
    obtain ⟨k, d⟩ := e
    simp only [List.map_cons, List.nodup_cons] at hnd
    obtain ⟨hk, hnd'⟩ := hnd
    rcases List.mem_cons.mp hmem with heq | hmem'
    · simp only [Prod.mk.injEq] at heq
      obtain ⟨rfl, rfl⟩ := heq
      simp only [dumpAll, hcreate, hwrite, Bool.false_eq_true, if_false]
      rw [dumpAll_other L actorID tempDir createErr writeErr _ rest _ hk, mapLoad_mapStore]
      simp
    · simp only [dumpAll]
      split
      · exact ih _ hnd' hmem'
      · split
        · exact ih _ hnd' hmem'
        · exact ih _ hnd' hmem'

/-- Counterexample to C12: a periodic sweep writes the row of a replica of
three changes; the replica then grows to five changes and the server shuts
down.  The shutdown dumps the five changes to a file, and the row still holds
the three. -/
theorem shutdown_leaves_stale_row :
    sweep countingLib (fun _ => false) [("default", 3)] [⟨"default", some ""⟩] []
      = ⟨[⟨"default", some "AAAA"⟩], ["default"]⟩ ∧
    shutdown countingLib (fun _ => "a1") "/tmp" (fun _ => false) (fun _ => false) 0
        [("default", 5)] [⟨"default", some "AAAA"⟩] []
      = ⟨[⟨"default", some "AAAA"⟩], [("/tmp/a1.automerge", unary 5)]⟩ ∧
    "AAAA" ≠ countingLib.encodeToString (countingLib.save 5) := by
  decide

/-- C12, amended: the shutdown sequence of the streaming server leaves the
table `stores` as it was (the rows hold what the last backup sweep wrote), and
its final sweep dumps every cached replica: when the dump files of the cached
replicas have distinct paths, the file of each replica whose `os.Create` and
`f.Write` do not fail holds the replica's serialization at shutdown. -/
theorem shutdown_dumps_files_and_keeps_rows (L : Lib Doc SS) (actorID : Doc → String)
    (tempDir : String) (createErr writeErr : String → Bool) (lateTicks : Nat)
    (cache : StringMap Doc) (rows : List ContentRow) (files : StringMap Bytes)
    (storeId : String) (doc : Doc)
    (hpaths : (cache.map (fun e => dumpPath tempDir (actorID e.2))).Nodup)
    (hmem : (storeId, doc) ∈ cache)
    (hcreate : createErr storeId = false) (hwrite : writeErr storeId = false) :
    (shutdown L actorID tempDir createErr writeErr lateTicks cache rows files).rows = rows ∧
    mapLoad (shutdown L actorID tempDir createErr writeErr lateTicks cache rows files).files
      (dumpPath tempDir (actorID doc)) = some (L.save doc) :=
  ⟨backupLoop_after_cancel L cache lateTicks rows,
    dumpAll_store L actorID tempDir createErr writeErr storeId doc hcreate hwrite cache files
      hpaths hmem⟩

/-- Witness of C12, amended: the shutdown after two late ticks, with a replica
of five changes and a row written when it had three. -/
theorem shutdown_dumps_files_and_keeps_rows_witness :
    ((([("default", 5)] : StringMap Nat).map
        (fun e => dumpPath "/tmp" ((fun _ => "a1") e.2))).Nodup ∧
      (("default", 5) : String × Nat) ∈ ([("default", 5)] : StringMap Nat)) ∧
    (shutdown countingLib (fun _ => "a1") "/tmp" (fun _ => false) (fun _ => false) 2
        [("default", 5)] [⟨"default", some "AAAA"⟩] []).rows = [⟨"default", some "AAAA"⟩] ∧
    mapLoad (shutdown countingLib (fun _ => "a1") "/tmp" (fun _ => false) (fun _ => false) 2
        [("default", 5)] [⟨"default", some "AAAA"⟩] []).files
      (dumpPath "/tmp" ((fun _ => "a1") 5)) = some (countingLib.save 5) :=
  ⟨⟨by decide, by decide⟩,
    shutdown_dumps_files_and_keeps_rows countingLib (fun _ => "a1") "/tmp" (fun _ => false)
      (fun _ => false) 2 [("default", 5)] [⟨"default", some "AAAA"⟩] [] "default" 5
      (by decide) (by decide) rfl rfl⟩

end Theorems

end Automerge
